import Mathlib

/-!
Verification of the interaction-callback authentication & dispatch subsystem
of the openclaw repository, shallowly embedded in Lean 4.

The embedding covers:
* `src/extensions/mattermost/src/mattermost/interactions.ts`
  (secret derivation, HMAC token codec, bounded body reader, HTTP handler);
* `src/src/slack/monitor/events/interactions.ts`
  (the block-layout transformation run on a button click).

JSON values are modelled by the inductive `Json` below; JavaScript objects are
association lists with insertion order, JavaScript strings are Lean strings
(UTF-16 length is modelled by `jsLength`, `Buffer.from` by `utf8Bytes`), and
`node:crypto`'s `createHmac("sha256", …)` is modelled by an executable
HMAC-SHA-256 transcribed from FIPS 180-4 / RFC 2104.
-/

set_option maxRecDepth 100000

/-- JSON-representable values. Objects are association lists that keep the
JavaScript insertion order of keys; numbers are restricted to integers. -/
inductive Json where
  | null
  | bool (b : Bool)
  | num (n : Int)
  | str (s : String)
  | arr (elems : List Json)
  | obj (entries : List (String × Json))

/-- First-match lookup of a key in a JavaScript object (association list). -/
def lookupJ (k : String) : List (String × Json) → Option Json
  | [] => none
  | (k', v) :: rest => if k' = k then some v else lookupJ k rest

/-- The own-key list of a JavaScript object, in insertion order
(`Object.keys`). -/
def keysOf (kvs : List (String × Json)) : List String := kvs.map (·.1)

-- ── Strings: JS length, UTF-8 bytes, code-unit comparison ───────────────

/-- UTF-8 encoding of a single Unicode scalar value. -/
def utf8EncodeChar (c : Char) : List Nat :=
  let n := c.toNat
  if n < 0x80 then [n]
  else if n < 0x800 then [0xC0 ||| (n >>> 6), 0x80 ||| (n &&& 0x3F)]
  else if n < 0x10000 then
    [0xE0 ||| (n >>> 12), 0x80 ||| ((n >>> 6) &&& 0x3F), 0x80 ||| (n &&& 0x3F)]
  else
    [0xF0 ||| (n >>> 18), 0x80 ||| ((n >>> 12) &&& 0x3F),
      0x80 ||| ((n >>> 6) &&& 0x3F), 0x80 ||| (n &&& 0x3F)]

/-- Model of `Buffer.from(s)`: the UTF-8 bytes of a string. -/
def utf8Bytes (s : String) : List Nat := (s.toList.map utf8EncodeChar).flatten

/-- JavaScript `s.length`: the number of UTF-16 code units (astral characters
count twice). -/
def jsLength (s : String) : Nat :=
  (s.toList.map (fun c => if c.toNat < 0x10000 then 1 else 2)).sum

/-- Code-unit-wise `≤` on character lists (JavaScript default sort order on
strings of BMP characters). -/
def charListLe : List Char → List Char → Bool
  | [], _ => true
  | _ :: _, [] => false
  | a :: as, b :: bs =>
    if a.toNat < b.toNat then true
    else if b.toNat < a.toNat then false
    else charListLe as bs

/-- Lexicographic `≤` on strings, as used by `Array.prototype.sort`. -/
def strLe (a b : String) : Bool := charListLe a.toList b.toList

/-- Model of `Object.keys(context).sort()`: sort a key list lexicographically. -/
def sortKeys (ks : List String) : List String :=
  List.insertionSort (fun a b => strLe a b = true) ks

-- ── SHA-256 (FIPS 180-4), executable on `Nat` ───────────────────────────

/-- Truncation to a 32-bit word. -/
def w32 (n : Nat) : Nat := n % 4294967296

/-- Right rotation of a 32-bit word. -/
def rotr (n x : Nat) : Nat := w32 ((x >>> n) ||| (x <<< (32 - n)))

def bigSigma0 (x : Nat) : Nat := (rotr 2 x) ^^^ (rotr 13 x) ^^^ (rotr 22 x)

def bigSigma1 (x : Nat) : Nat := (rotr 6 x) ^^^ (rotr 11 x) ^^^ (rotr 25 x)

def smallSigma0 (x : Nat) : Nat := (rotr 7 x) ^^^ (rotr 18 x) ^^^ (x >>> 3)

def smallSigma1 (x : Nat) : Nat := (rotr 17 x) ^^^ (rotr 19 x) ^^^ (x >>> 10)

def chB (e f g : Nat) : Nat := (e &&& f) ^^^ ((e ^^^ 0xFFFFFFFF) &&& g)

def majB (a b c : Nat) : Nat := (a &&& b) ^^^ (a &&& c) ^^^ (b &&& c)

/-- The 64 SHA-256 round constants. -/
def sha256K : List Nat :=
  [1116352408, 1899447441, 3049323471, 3921009573, 961987163, 1508970993,
   2453635748, 2870763221, 3624381080, 310598401, 607225278, 1426881987,
   1925078388, 2162078206, 2614888103, 3248222580, 3835390401, 4022224774,
   264347078, 604807628, 770255983, 1249150122, 1555081692, 1996064986,
   2554220882, 2821834349, 2952996808, 3210313671, 3336571891, 3584528711,
   113926993, 338241895, 666307205, 773529912, 1294757372, 1396182291,
   1695183700, 1986661051, 2177026350, 2456956037, 2730485921, 2820302411,
   3259730800, 3345764771, 3516065817, 3600352804, 4094571909, 275423344,
   430227734, 506948616, 659060556, 883997877, 958139571, 1322822218,
   1537002063, 1747873779, 1955562222, 2024104815, 2227730452, 2361852424,
   2428436474, 2756734187, 3204031479, 3329325298]

/-- The SHA-256 initial hash value. -/
def sha256Init : List Nat :=
  [1779033703, 3144134277, 1013904242, 2773480762,
   1359893119, 2600822924, 528734635, 1541459225]

/-- Big-endian byte rendering of a number on `k` bytes. -/
def beBytes : Nat → Nat → List Nat
  | 0, _ => []
  | k + 1, n => beBytes k (n / 256) ++ [n % 256]

/-- Group bytes into big-endian 32-bit words. -/
def bytesToWords : List Nat → List Nat
  | b0 :: b1 :: b2 :: b3 :: rest =>
    (((b0 * 256 + b1) * 256 + b2) * 256 + b3) :: bytesToWords rest
  | _ => []

/-- Extend the 16-word message schedule by `fuel` further words. -/
def extendW : Nat → List Nat → List Nat
  | 0, w => w
  | n + 1, w =>
    let t := w32 (smallSigma1 (w.getD (w.length - 2) 0) + w.getD (w.length - 7) 0 +
      smallSigma0 (w.getD (w.length - 15) 0) + w.getD (w.length - 16) 0)
    extendW n (w ++ [t])

/-- One SHA-256 round on the eight working variables. -/
def sha256Round (st : List Nat) (k w : Nat) : List Nat :=
  match st with
  | [a, b, c, d, e, f, g, h] =>
    let t1 := w32 (h + bigSigma1 e + chB e f g + k + w)
    let t2 := w32 (bigSigma0 a + majB a b c)
    [w32 (t1 + t2), a, b, c, w32 (d + t1), e, f, g]
  | st => st

/-- SHA-256 compression of one 64-byte block into the running hash. -/
def sha256Compress (H : List Nat) (block : List Nat) : List Nat :=
  let W := extendW 48 (bytesToWords block)
  let s := (sha256K.zip W).foldl (fun st kw => sha256Round st kw.1 kw.2) H
  (H.zip s).map (fun xy => w32 (xy.1 + xy.2))

/-- SHA-256 padding: append `0x80`, zeros, and the 64-bit bit length. -/
def sha256Pad (msg : List Nat) : List Nat :=
  msg ++ [0x80] ++ List.replicate ((119 - msg.length % 64) % 64) 0 ++
    beBytes 8 (msg.length * 8)

/-- Split a byte list into 64-byte blocks (`fuel` bounds the recursion and is
always instantiated with the length of the list). -/
def chunks64 : Nat → List Nat → List (List Nat)
  | 0, _ => []
  | _, [] => []
  | fuel + 1, l => l.take 64 :: chunks64 fuel (l.drop 64)

/-- SHA-256 of a byte list. -/
def sha256Bytes (msg : List Nat) : List Nat :=
  let padded := sha256Pad msg
  let H := (chunks64 padded.length padded).foldl sha256Compress sha256Init
  (H.map (beBytes 4)).flatten

/-- HMAC-SHA-256 (RFC 2104) over byte lists. -/
def hmacSha256 (key msg : List Nat) : List Nat :=
  let k0 := if key.length > 64 then sha256Bytes key else key
  let kp := k0 ++ List.replicate (64 - k0.length) 0
  let ipad := kp.map (fun b => b ^^^ 0x36)
  let opad := kp.map (fun b => b ^^^ 0x5C)
  sha256Bytes (opad ++ sha256Bytes (ipad ++ msg))

/-- Lower-case hex digit. -/
def hexDigit (n : Nat) : Char :=
  if n < 10 then Char.ofNat (48 + n) else Char.ofNat (87 + n)

/-- The two hex characters of one byte. -/
def hexPair (b : Nat) : List Char := [hexDigit (b / 16), hexDigit (b % 16)]

/-- Lower-case hex rendering of a byte list. -/
def bytesToHex (bs : List Nat) : String := String.mk ((bs.map hexPair).flatten)

/-- Model of `createHmac("sha256", key).update(msg).digest("hex")` on strings. -/
def hmacHex (key msg : String) : String :=
  bytesToHex (hmacSha256 (utf8Bytes key) (utf8Bytes msg))

-- ── `JSON.stringify(value, replacerArray)` ──────────────────────────────

/-- JSON string escaping of one character (ECMA-262 QuoteJSONString). -/
def escapeChar (c : Char) : List Char :=
  if c = '"' then ['\\', '"']
  else if c = '\\' then ['\\', '\\']
  else if c = '\x08' then ['\\', 'b']
  else if c = '\x0c' then ['\\', 'f']
  else if c = '\n' then ['\\', 'n']
  else if c = '\r' then ['\\', 'r']
  else if c = '\t' then ['\\', 't']
  else if c.toNat < 32 then '\\' :: 'u' :: '0' :: '0' :: hexPair c.toNat
  else [c]

/-- JSON string quoting (ECMA-262 QuoteJSONString). -/
def quoteJson (s : String) : String :=
  String.mk ('"' :: (s.toList.map escapeChar).flatten ++ ['"'])

/-- Join serialized members with commas. -/
def joinComma : List String → String
  | [] => ""
  | [s] => s
  | s :: t :: rest => s ++ "," ++ joinComma (t :: rest)

/-- A value found by `lookupJ` is structurally smaller than the object list. -/
theorem sizeOf_lookupJ {k : String} : ∀ {kvs : List (String × Json)} {v : Json},
    lookupJ k kvs = some v → sizeOf v < sizeOf kvs := by
  intro kvs
  induction kvs with
  | nil => intro v h; simp [lookupJ] at h
  | cons hd tl ih =>
    intro v h
    simp only [lookupJ] at h
    split at h
    · cases h
      cases hd with
      | mk k' v => simp; omega
    · have := ih h
      cases hd with
      | mk k' v' => simp; omega

mutual

/-- ECMA-262 SerializeJSONProperty with a PropertyList `K`: the whitelist `K`
is applied to objects at every nesting depth, in `K`'s order. This models
`JSON.stringify(context, Object.keys(context).sort())`. -/
def serializeWith (K : List String) : Json → String
  | .null => "null"
  | .bool b => cond b "true" "false"
  | .num n => toString n
  | .str s => quoteJson s
  | .arr xs => "[" ++ serializeArr K xs ++ "]"
  | .obj kvs => "\x7b" ++ joinComma (entryStrings K K kvs) ++ "\x7d"
termination_by j => (sizeOf j, 0)
decreasing_by
  all_goals simp_wf
  all_goals first
  | exact Prod.Lex.left _ _ (sizeOf_lookupJ h)
  | exact Prod.Lex.left _ _ (by omega)
  | exact Prod.Lex.left _ _ (by simp; omega)
  | exact Prod.Lex.right _ (by omega)

/-- SerializeJSONArray: arrays serialize every element (the whitelist does not
filter array indices). -/
def serializeArr (K : List String) : List Json → String
  | [] => ""
  | [x] => serializeWith K x
  | x :: y :: rest => serializeWith K x ++ "," ++ serializeArr K (y :: rest)
termination_by xs => (sizeOf xs, 0)
decreasing_by
  all_goals simp_wf
  all_goals first
  | exact Prod.Lex.left _ _ (sizeOf_lookupJ h)
  | exact Prod.Lex.left _ _ (by omega)
  | exact Prod.Lex.left _ _ (by simp; omega)
  | exact Prod.Lex.right _ (by omega)

/-- SerializeJSONObject: iterate the PropertyList `ks`, keeping the keys the
object actually has. -/
def entryStrings (K : List String) : List String → List (String × Json) → List String
  | [], _ => []
  | k :: ks, kvs =>
    match h : lookupJ k kvs with
    | some v => (quoteJson k ++ ":" ++ serializeWith K v) :: entryStrings K ks kvs
    | none => entryStrings K ks kvs
termination_by ks kvs => (sizeOf kvs, ks.length)
decreasing_by
  all_goals simp_wf
  all_goals first
  | exact Prod.Lex.left _ _ (sizeOf_lookupJ h)
  | exact Prod.Lex.left _ _ (by omega)
  | exact Prod.Lex.left _ _ (by simp; omega)
  | exact Prod.Lex.right _ (by omega)

end

-- ── Token codec (`interactions.ts` lines 66–96) ─────────────────────────

/-- Model of `generateInteractionToken` given an initialized secret:
`JSON.stringify(context, Object.keys(context).sort())` then HMAC-SHA-256. -/
def generateTokenWith (secret : String) (context : List (String × Json)) : String :=
  hmacHex secret (serializeWith (sortKeys (keysOf context)) (Json.obj context))

/-- Model of `setInteractionSecret(botToken)`: the new module-level secret value. -/
def setInteractionSecret (botToken : String) : Option String :=
  some (hmacHex "openclaw-mattermost-interactions" botToken)

/-- Model of `getInteractionSecret()`: the module-level secret, or a thrown error when
no `setInteractionSecret` call was ever made. -/
def getInteractionSecret : Option String → Except String String
  | none => .error "Interaction secret not initialized"
  | some s => .ok s

/-- Model of `generateInteractionToken(context)` against the module secret state. -/
def generateInteractionToken (st : Option String) (context : List (String × Json)) :
    Except String String := do
  let secret ← getInteractionSecret st
  return generateTokenWith secret context

/-- Model of `crypto.timingSafeEqual`: throws when the byte lengths differ, otherwise
returns byte equality. -/
def timingSafeEqual (a b : List Nat) : Except String Bool :=
  if a.length = b.length then .ok (a == b)
  else .error "ERR_CRYPTO_TIMING_SAFE_EQUAL_LENGTH"

/-- Model of `verifyInteractionToken(context, token)`: recompute the token, compare JS
string lengths, then `timingSafeEqual` on the UTF-8 bytes. -/
def verifyInteractionToken (st : Option String) (context : List (String × Json))
    (token : String) : Except String Bool := do
  let expected ← generateInteractionToken st context
  if jsLength expected ≠ jsLength token then return false
  else timingSafeEqual (utf8Bytes expected) (utf8Bytes token)

-- ── Deep key-order permutation of JSON values ───────────────────────────

/-- Remove the first entry carrying key `k` from an object. -/
def eraseKey (k : String) : List (String × Json) → List (String × Json)
  | [] => []
  | (k', v) :: rest => if k' = k then rest else (k', v) :: eraseKey k rest

mutual

/-- Model of `keyPermB a b`: `b` is `a` with object key insertion order permuted at any
nesting depth (array order and all leaf values unchanged). -/
def keyPermB : Json → Json → Bool
  | .null, .null => true
  | .bool a, .bool b => a == b
  | .num a, .num b => a == b
  | .str a, .str b => a == b
  | .arr xs, .arr ys => keyPermArr xs ys
  | .obj kvs, .obj kvs' => keyPermObj kvs kvs'
  | _, _ => false
termination_by a _ => sizeOf a
decreasing_by all_goals simp_wf <;> omega

/-- Elementwise `keyPermB` on arrays. -/
def keyPermArr : List Json → List Json → Bool
  | [], [] => true
  | x :: xs, y :: ys => keyPermB x y && keyPermArr xs ys
  | _, _ => false
termination_by xs _ => sizeOf xs
decreasing_by all_goals simp_wf <;> omega

/-- Key-multiset permutation on objects, with values related by `keyPermB`. -/
def keyPermObj : List (String × Json) → List (String × Json) → Bool
  | [], [] => true
  | [], _ :: _ => false
  | (k, v) :: rest, ys =>
    match lookupJ k ys with
    | some v' => keyPermB v v' && keyPermObj rest (eraseKey k ys)
    | none => false
termination_by kvs _ => sizeOf kvs
decreasing_by all_goals simp_wf <;> omega

end

-- ── The sort order used by `Array.prototype.sort` on keys ───────────────

theorem charListLe_total : ∀ a b : List Char, charListLe a b = true ∨ charListLe b a = true := by
  intro a
  induction a with
  | nil => intro b; left; simp [charListLe]
  | cons x xs ih =>
    intro b
    cases b with
    | nil => right; simp [charListLe]
    | cons y ys =>
      by_cases hxy : x.toNat < y.toNat
      · left; simp [charListLe, hxy]
      · by_cases hyx : y.toNat < x.toNat
        · right; simp [charListLe, hyx]
        · have hx : ¬ x.toNat < y.toNat := hxy
          rcases ih ys with h | h
          · left; simp [charListLe, hx, hyx, h]
          · right; simp [charListLe, hx, hyx, h]

theorem charListLe_trans : ∀ a b c : List Char,
    charListLe a b = true → charListLe b c = true → charListLe a c = true := by
  intro a
  induction a with
  | nil => intro b c _ _; simp [charListLe]
  | cons x xs ih =>
    intro b c hab hbc
    cases b with
    | nil => simp [charListLe] at hab
    | cons y ys =>
      cases c with
      | nil => simp [charListLe] at hbc
      | cons z zs =>
        simp only [charListLe] at hab hbc ⊢
        split at hab
        · rename_i hxy
          split at hbc
          · rename_i hyz; simp [show x.toNat < z.toNat by omega]
          · split at hbc
            · simp at hbc
            · rename_i hyz hzy
              simp [show x.toNat < z.toNat by omega]
        · split at hab
          · simp at hab
          · rename_i hxy hyx
            split at hbc
            · rename_i hyz
              simp [show x.toNat < z.toNat by omega]
            · split at hbc
              · simp at hbc
              · rename_i hyz hzy
                have hxz : ¬ x.toNat < z.toNat := by omega
                have hzx : ¬ z.toNat < x.toNat := by omega
                simp only [hxz, if_false, hzx]
                exact ih ys zs hab hbc

theorem char_toNat_inj {a b : Char} (h : a.toNat = b.toNat) : a = b := by
  have hb : a.val.toBitVec = b.val.toBitVec := BitVec.eq_of_toNat_eq h
  have hv : a.val = b.val := by
    cases av : a.val; cases bv : b.val
    rw [av, bv] at hb
    simp only at hb
    rw [hb]
  exact Char.ext hv

theorem charListLe_antisymm : ∀ a b : List Char,
    charListLe a b = true → charListLe b a = true → a = b := by
  intro a
  induction a with
  | nil =>
    intro b _ hba
    cases b with
    | nil => rfl
    | cons y ys => simp [charListLe] at hba
  | cons x xs ih =>
    intro b hab hba
    cases b with
    | nil => simp [charListLe] at hab
    | cons y ys =>
      simp only [charListLe] at hab hba
      split at hab
      · rename_i hxy
        rw [if_neg (by omega), if_pos hxy] at hba
        simp at hba
      · split at hab
        · simp at hab
        · rename_i hxy hyx
          rw [if_neg (by omega), if_neg (by omega)] at hba
          have hx : x = y := char_toNat_inj (by omega)
          rw [hx, ih ys hab hba]

theorem strLe_total (a b : String) : strLe a b = true ∨ strLe b a = true :=
  charListLe_total a.toList b.toList

theorem strLe_trans {a b c : String} (hab : strLe a b = true) (hbc : strLe b c = true) :
    strLe a c = true :=
  charListLe_trans a.toList b.toList c.toList hab hbc

theorem strLe_antisymm {a b : String} (hab : strLe a b = true) (hba : strLe b a = true) :
    a = b := by
  have h := charListLe_antisymm a.toList b.toList hab hba
  have ha : String.mk a.toList = String.mk b.toList := by rw [h]
  simpa using ha

instance : IsTotal String (fun a b => strLe a b = true) := ⟨strLe_total⟩

instance : IsTrans String (fun a b => strLe a b = true) := ⟨fun _ _ _ => strLe_trans⟩

instance : IsAntisymm String (fun a b => strLe a b = true) := ⟨fun _ _ => strLe_antisymm⟩

/-- Sorting is a canonical form: permuted key lists sort identically. -/
theorem sortKeys_perm_eq {ks ks' : List String} (h : ks.Perm ks') :
    sortKeys ks = sortKeys ks' :=
  List.eq_of_perm_of_sorted
    ((List.perm_insertionSort _ ks).trans (h.trans (List.perm_insertionSort _ ks').symm))
    (List.sorted_insertionSort _ ks) (List.sorted_insertionSort _ ks')

-- ── Permuted objects serialize identically under any whitelist ──────────

theorem lookupJ_eraseKey_ne {k k0 : String} (hne : k ≠ k0) :
    ∀ ys : List (String × Json), lookupJ k (eraseKey k0 ys) = lookupJ k ys := by
  intro ys
  induction ys with
  | nil => simp [eraseKey]
  | cons hd tl ih =>
    obtain ⟨k', v⟩ := hd
    by_cases h : k' = k0
    · subst h
      have h1 : ¬ (k' = k) := fun hh => hne hh.symm
      simp [eraseKey, lookupJ, h1]
    · simp only [eraseKey, h, if_false]
      by_cases h2 : k' = k
      · simp [lookupJ, h2]
      · simp [lookupJ, h2, ih]

theorem keysOf_perm_of_lookup {k : String} {v' : Json} :
    ∀ {ys : List (String × Json)}, lookupJ k ys = some v' →
      (keysOf ys).Perm (k :: keysOf (eraseKey k ys)) := by
  intro ys
  induction ys with
  | nil => intro h; simp [lookupJ] at h
  | cons hd tl ih =>
    intro h
    cases hd with
    | mk k0 v0 =>
      by_cases hk : k0 = k
      · subst hk
        simp [eraseKey, keysOf]
      · simp only [lookupJ, hk, if_false] at h
        have := ih h
        simp only [eraseKey, hk, if_false, keysOf, List.map_cons] at *
        exact (this.cons k0).trans (List.Perm.swap k k0 _)

theorem keyPermObj_keys_perm :
    ∀ (kvs ys : List (String × Json)), keyPermObj kvs ys = true →
      (keysOf kvs).Perm (keysOf ys) := by
  intro kvs
  induction kvs with
  | nil =>
    intro ys h
    cases ys with
    | nil => simp [keysOf]
    | cons hd tl => simp [keyPermObj] at h
  | cons hd rest ih =>
    intro ys h
    cases hd with
    | mk k v =>
      simp only [keyPermObj] at h
      cases hl : lookupJ k ys with
      | none => rw [hl] at h; simp at h
      | some v' =>
        rw [hl] at h
        simp only [Bool.and_eq_true] at h
        have hperm := ih (eraseKey k ys) h.2
        have hkeys := keysOf_perm_of_lookup hl
        simp only [keysOf, List.map_cons] at *
        exact (hperm.cons k).trans hkeys.symm

theorem keyPermObj_lookup :
    ∀ (kvs ys : List (String × Json)), keyPermObj kvs ys = true → ∀ k,
      (lookupJ k kvs = none ∧ lookupJ k ys = none) ∨
      (∃ v v', lookupJ k kvs = some v ∧ lookupJ k ys = some v' ∧ keyPermB v v' = true) := by
  intro kvs
  induction kvs with
  | nil =>
    intro ys h k
    cases ys with
    | nil => left; simp [lookupJ]
    | cons hd tl => simp [keyPermObj] at h
  | cons hd rest ih =>
    intro ys h k
    cases hd with
    | mk k0 v0 =>
      simp only [keyPermObj] at h
      cases hl : lookupJ k0 ys with
      | none => rw [hl] at h; simp at h
      | some v0' =>
        rw [hl] at h
        simp only [Bool.and_eq_true] at h
        by_cases hk : k = k0
        · subst hk
          right
          exact ⟨v0, v0', by simp [lookupJ], hl, h.1⟩
        · have hrest := ih (eraseKey k0 ys) h.2 k
          have herase := lookupJ_eraseKey_ne hk ys
          have hhd : lookupJ k ((k0, v0) :: rest) = lookupJ k rest := by
            simp [lookupJ, Ne.symm hk]
          rw [herase] at hrest
          rw [hhd]
          exact hrest

theorem serializeArr_congr {K : List String} :
    ∀ (xs ys : List Json), keyPermArr xs ys = true →
      (∀ x y, x ∈ xs → keyPermB x y = true → serializeWith K x = serializeWith K y) →
      serializeArr K xs = serializeArr K ys := by
  intro xs
  induction xs with
  | nil =>
    intro ys h _
    cases ys with
    | nil => rfl
    | cons y ys => simp [keyPermArr] at h
  | cons x xs ih =>
    intro ys h hcong
    cases ys with
    | nil => simp [keyPermArr] at h
    | cons y ys =>
      simp only [keyPermArr, Bool.and_eq_true] at h
      have hx := hcong x y (by simp) h.1
      cases xs with
      | nil =>
        cases ys with
        | nil => simpa [serializeArr] using hx
        | cons z zs => simp [keyPermArr] at h
      | cons x2 xs2 =>
        cases ys with
        | nil => simp [keyPermArr] at h
        | cons y2 ys2 =>
          have := ih (y2 :: ys2) h.2 (fun a b ha hb => hcong a b (by simp [ha]) hb)
          simp only [serializeArr]
          rw [hx, this]

/-- Unfolding equation for `entryStrings` when the key is present. -/
theorem entryStrings_cons_some {K : List String} {k : String} {ks : List String}
    {kvs : List (String × Json)} {v : Json} (h : lookupJ k kvs = some v) :
    entryStrings K (k :: ks) kvs =
      (quoteJson k ++ ":" ++ serializeWith K v) :: entryStrings K ks kvs := by
  simp only [entryStrings]
  split
  · rename_i v' heq
    rw [h] at heq
    cases heq
    rfl
  · rename_i heq
    rw [h] at heq
    cases heq

/-- Unfolding equation for `entryStrings` when the key is absent. -/
theorem entryStrings_cons_none {K : List String} {k : String} {ks : List String}
    {kvs : List (String × Json)} (h : lookupJ k kvs = none) :
    entryStrings K (k :: ks) kvs = entryStrings K ks kvs := by
  simp only [entryStrings]
  split
  · rename_i v' heq
    rw [h] at heq
    cases heq
  · rfl

theorem entryStrings_congr {K : List String} {kvs kvs' : List (String × Json)}
    (hpres : ∀ k, (lookupJ k kvs).isSome = (lookupJ k kvs').isSome)
    (hser : ∀ k v v', lookupJ k kvs = some v → lookupJ k kvs' = some v' →
      serializeWith K v = serializeWith K v') :
    ∀ ks, entryStrings K ks kvs = entryStrings K ks kvs' := by
  intro ks
  induction ks with
  | nil => simp [entryStrings]
  | cons k ks ih =>
    cases h1 : lookupJ k kvs with
    | none =>
      have h2 : lookupJ k kvs' = none := by
        have := hpres k
        rw [h1] at this
        cases h2' : lookupJ k kvs' with
        | none => rfl
        | some w => rw [h2'] at this; simp at this
      rw [entryStrings_cons_none h1, entryStrings_cons_none h2]
      exact ih
    | some v =>
      have h2 : ∃ v', lookupJ k kvs' = some v' := by
        have := hpres k
        rw [h1] at this
        cases h2' : lookupJ k kvs' with
        | none => rw [h2'] at this; simp at this
        | some w => exact ⟨w, rfl⟩
      obtain ⟨v', h2⟩ := h2
      rw [entryStrings_cons_some h1, entryStrings_cons_some h2,
        hser k v v' h1 h2, ih]

/-- Core congruence: deep key-permuted values serialize identically under any
property whitelist. -/
theorem serializeWith_congr :
    ∀ (n : Nat) (a b : Json), sizeOf a ≤ n → keyPermB a b = true →
      ∀ K, serializeWith K a = serializeWith K b := by
  intro n
  induction n using Nat.strong_induction_on with
  | _ n ih =>
    intro a b hs hp K
    cases a with
    | null => cases b <;> simp_all [keyPermB]
    | bool x =>
      cases b <;> simp_all [keyPermB]
    | num x =>
      cases b <;> simp_all [keyPermB]
    | str x =>
      cases b <;> simp_all [keyPermB]
    | arr xs =>
      cases b with
      | arr ys =>
        have hp' : keyPermArr xs ys = true := by simpa [keyPermB] using hp
        have : serializeArr K xs = serializeArr K ys := by
          apply serializeArr_congr xs ys hp'
          intro x y hx hxy
          have hlt : sizeOf x < n := by
            have h1 : sizeOf x < sizeOf (Json.arr xs) := by
              have := List.sizeOf_lt_of_mem hx
              simp only [Json.arr.sizeOf_spec]
              omega
            omega
          exact ih (sizeOf x) hlt x y le_rfl hxy K
        simp only [serializeWith]
        rw [this]
      | null => simp [keyPermB] at hp
      | bool _ => simp [keyPermB] at hp
      | num _ => simp [keyPermB] at hp
      | str _ => simp [keyPermB] at hp
      | obj _ => simp [keyPermB] at hp
    | obj kvs =>
      cases b with
      | obj kvs' =>
        have hp' : keyPermObj kvs kvs' = true := by simpa [keyPermB] using hp
        have hrel := keyPermObj_lookup kvs kvs' hp'
        have hpres : ∀ k, (lookupJ k kvs).isSome = (lookupJ k kvs').isSome := by
          intro k
          rcases hrel k with ⟨h1, h2⟩ | ⟨v, v', h1, h2, _⟩ <;> rw [h1, h2] <;> rfl
        have : entryStrings K K kvs = entryStrings K K kvs' := by
          apply entryStrings_congr hpres
          intro k v v' h1 h2
          rcases hrel k with ⟨hn, _⟩ | ⟨w, w', hw, hw', hperm⟩
          · rw [h1] at hn; cases hn
          · rw [h1] at hw
            rw [h2] at hw'
            cases hw
            cases hw'
            have hlt : sizeOf v < n := by
              have h1' : sizeOf v < sizeOf (Json.obj kvs) := by
                have := sizeOf_lookupJ h1
                simp only [Json.obj.sizeOf_spec]
                omega
              omega
            exact ih (sizeOf v) hlt v v' le_rfl hperm K
        simp only [serializeWith]
        rw [this]
      | null => simp [keyPermB] at hp
      | bool _ => simp [keyPermB] at hp
      | num _ => simp [keyPermB] at hp
      | str _ => simp [keyPermB] at hp
      | arr _ => simp [keyPermB] at hp

/-- Permuting context keys at any depth leaves the generated token unchanged. -/
theorem generateTokenWith_eq_of_perm {s : String} {C C' : List (String × Json)}
    (h : keyPermObj C C' = true) :
    generateTokenWith s C' = generateTokenWith s C := by
  have hkeys : (keysOf C).Perm (keysOf C') := keyPermObj_keys_perm C C' h
  have hK : sortKeys (keysOf C') = sortKeys (keysOf C) := (sortKeys_perm_eq hkeys).symm
  have hser : ∀ K, serializeWith K (Json.obj C) = serializeWith K (Json.obj C') := by
    intro K
    apply serializeWith_congr (sizeOf (Json.obj C)) _ _ le_rfl
    simpa [keyPermB] using h
  unfold generateTokenWith
  rw [hK, hser]

/-- Verification always succeeds on the very token the codec generates. -/
theorem verify_of_token_eq {s : String} {ctx : List (String × Json)} {token : String}
    (h : generateTokenWith s ctx = token) :
    verifyInteractionToken (some s) ctx token = .ok true := by
  subst h
  simp [verifyInteractionToken, generateInteractionToken, getInteractionSecret,
    timingSafeEqual, Except.bind, bind, pure, Except.pure]

-- ── C1 ──────────────────────────────────────────────────────────────────

/-- C1: for every signing context `C` and every permutation `C'` of object key
insertion order applied at any nesting depth of `C`,
`verifyInteractionToken(C', generateInteractionToken(C))` returns `true`:
canonicalization makes the token independent of key order at every depth. -/
theorem C1_verify_accepts_key_permuted_context
    (botToken : String) (C C' : List (String × Json)) (token : String)
    (hperm : keyPermObj C C' = true)
    (hgen : generateInteractionToken (setInteractionSecret botToken) C = .ok token) :
    verifyInteractionToken (setInteractionSecret botToken) C' token = .ok true := by
  have hsecret : getInteractionSecret (setInteractionSecret botToken) =
      .ok (hmacHex "openclaw-mattermost-interactions" botToken) := rfl
  have htok : token = generateTokenWith (hmacHex "openclaw-mattermost-interactions" botToken) C := by
    simp [generateInteractionToken, setInteractionSecret, getInteractionSecret,
      Except.bind, bind, pure, Except.pure] at hgen
    exact hgen.symm
  subst htok
  have := @generateTokenWith_eq_of_perm
    (hmacHex "openclaw-mattermost-interactions" botToken) C C' hperm
  exact verify_of_token_eq this

/-- Witness for C1: a two-level context with both the top-level and a nested
key order permuted. -/
theorem C1_witness :
    keyPermObj
      [("b", Json.num 1), ("a", Json.obj [("y", Json.str "u"), ("x", Json.null)])]
      [("a", Json.obj [("x", Json.null), ("y", Json.str "u")]), ("b", Json.num 1)] = true ∧
    verifyInteractionToken (setInteractionSecret "test-bot-token")
      [("a", Json.obj [("x", Json.null), ("y", Json.str "u")]), ("b", Json.num 1)]
      (generateTokenWith (hmacHex "openclaw-mattermost-interactions" "test-bot-token")
        [("b", Json.num 1), ("a", Json.obj [("y", Json.str "u"), ("x", Json.null)])]) = .ok true := by
  constructor
  · simp [keyPermB, keyPermArr, keyPermObj, lookupJ, eraseKey]
  · apply C1_verify_accepts_key_permuted_context "test-bot-token"
      [("b", Json.num 1), ("a", Json.obj [("y", Json.str "u"), ("x", Json.null)])]
    · simp [keyPermB, keyPermArr, keyPermObj, lookupJ, eraseKey]
    · rfl

-- ── Shape facts about HMAC hex digests ──────────────────────────────────

theorem beBytes_length : ∀ (k n : Nat), (beBytes k n).length = k := by
  intro k
  induction k with
  | zero => intro n; rfl
  | succ k ih => intro n; simp [beBytes, ih]

theorem beBytes_mem_lt : ∀ (k n b : Nat), b ∈ beBytes k n → b < 256 := by
  intro k
  induction k with
  | zero => intro n b h; simp [beBytes] at h
  | succ k ih =>
    intro n b h
    simp only [beBytes, List.mem_append, List.mem_singleton] at h
    rcases h with h | h
    · exact ih _ b h
    · subst h; exact Nat.mod_lt _ (by omega)

theorem sha256Round_length (st : List Nat) (k w : Nat) :
    (sha256Round st k w).length = st.length := by
  unfold sha256Round
  split <;> simp

theorem sha256_foldl_rounds_length (l : List (Nat × Nat)) :
    ∀ H : List Nat, (l.foldl (fun st kw => sha256Round st kw.1 kw.2) H).length = H.length := by
  induction l with
  | nil => intro H; rfl
  | cons hd tl ih => intro H; rw [List.foldl_cons, ih, sha256Round_length]

theorem sha256Compress_length (H block : List Nat) :
    (sha256Compress H block).length = H.length := by
  unfold sha256Compress
  simp [sha256_foldl_rounds_length]

theorem sha256_foldl_compress_length (chunks : List (List Nat)) :
    ∀ H : List Nat, (chunks.foldl sha256Compress H).length = H.length := by
  induction chunks with
  | nil => intro H; rfl
  | cons hd tl ih => intro H; rw [List.foldl_cons, ih, sha256Compress_length]

theorem flatten_map_beBytes4_length (H : List Nat) :
    ((H.map (beBytes 4)).flatten).length = 4 * H.length := by
  induction H with
  | nil => rfl
  | cons hd tl ih => simp [ih, beBytes_length]; omega

theorem sha256Bytes_length (msg : List Nat) : (sha256Bytes msg).length = 32 := by
  unfold sha256Bytes
  rw [flatten_map_beBytes4_length, sha256_foldl_compress_length]
  rfl

theorem sha256Bytes_mem_lt (msg : List Nat) (b : Nat) (h : b ∈ sha256Bytes msg) : b < 256 := by
  unfold sha256Bytes at h
  simp only [List.mem_flatten, List.mem_map] at h
  obtain ⟨l, ⟨x, _, hx⟩, hbl⟩ := h
  subst hx
  exact beBytes_mem_lt 4 x b hbl

theorem hmacSha256_length (key msg : List Nat) : (hmacSha256 key msg).length = 32 := by
  unfold hmacSha256
  exact sha256Bytes_length _

theorem hmacSha256_mem_lt (key msg : List Nat) (b : Nat) (h : b ∈ hmacSha256 key msg) :
    b < 256 := by
  unfold hmacSha256 at h
  exact sha256Bytes_mem_lt _ b h

theorem hexDigit_toNat_lt : ∀ n < 16, (hexDigit n).toNat < 128 := by decide

theorem hexPair_ascii (b : Nat) (hb : b < 256) : ∀ c ∈ hexPair b, c.toNat < 128 := by
  intro c hc
  simp only [hexPair, List.mem_cons, List.mem_singleton] at hc
  rcases hc with h | h | h
  · subst h; exact hexDigit_toNat_lt (b / 16) (by omega)
  · subst h; exact hexDigit_toNat_lt (b % 16) (by omega)
  · cases h

theorem flatten_map_hexPair_length (bs : List Nat) :
    ((bs.map hexPair).flatten).length = 2 * bs.length := by
  induction bs with
  | nil => rfl
  | cons hd tl ih => simp [hexPair, ih]; omega

theorem bytesToHex_ascii (bs : List Nat) (hb : ∀ b ∈ bs, b < 256) :
    ∀ c ∈ (bs.map hexPair).flatten, c.toNat < 128 := by
  intro c hc
  simp only [List.mem_flatten, List.mem_map] at hc
  obtain ⟨l, ⟨b, hbmem, hbl⟩, hcl⟩ := hc
  subst hbl
  exact hexPair_ascii b (hb b hbmem) c hcl

theorem utf8EncodeChar_ascii {c : Char} (h : c.toNat < 128) : utf8EncodeChar c = [c.toNat] := by
  unfold utf8EncodeChar
  rw [if_pos h]

theorem jsLength_chars : ∀ l : List Char, (∀ c ∈ l, c.toNat < 128) →
    (l.map (fun c => if c.toNat < 0x10000 then 1 else 2)).sum = l.length := by
  intro l
  induction l with
  | nil => intro _; rfl
  | cons hd tl ih =>
    intro h
    have hhd : hd.toNat < 0x10000 := by have := h hd (by simp); omega
    simp only [List.map_cons, List.sum_cons, List.length_cons, if_pos hhd]
    rw [ih (fun c hc => h c (by simp [hc]))]
    omega

theorem jsLength_mk_ascii (l : List Char) (h : ∀ c ∈ l, c.toNat < 128) :
    jsLength (String.mk l) = l.length := by
  unfold jsLength
  exact jsLength_chars l h

theorem utf8Chars_ascii : ∀ l : List Char, (∀ c ∈ l, c.toNat < 128) →
    (l.map utf8EncodeChar).flatten = l.map Char.toNat := by
  intro l
  induction l with
  | nil => intro _; rfl
  | cons hd tl ih =>
    intro h
    simp only [List.map_cons, List.flatten_cons]
    rw [utf8EncodeChar_ascii (h hd (by simp)), ih (fun c hc => h c (by simp [hc]))]
    rfl

theorem utf8Bytes_mk_ascii (l : List Char) (h : ∀ c ∈ l, c.toNat < 128) :
    utf8Bytes (String.mk l) = l.map Char.toNat := by
  unfold utf8Bytes
  exact utf8Chars_ascii l h

/-- A hex digest has JS string length 64. -/
theorem jsLength_hmacHex (key msg : String) : jsLength (hmacHex key msg) = 64 := by
  unfold hmacHex bytesToHex
  rw [jsLength_mk_ascii _ (bytesToHex_ascii _ (hmacSha256_mem_lt _ _)),
    flatten_map_hexPair_length, hmacSha256_length]

/-- A hex digest is ASCII: its UTF-8 bytes are its 64 character codes. -/
theorem utf8Bytes_hmacHex (key msg : String) :
    utf8Bytes (hmacHex key msg) =
      ((hmacSha256 (utf8Bytes key) (utf8Bytes msg)).map hexPair).flatten.map Char.toNat := by
  unfold hmacHex bytesToHex
  exact utf8Bytes_mk_ascii _ (bytesToHex_ascii _ (hmacSha256_mem_lt _ _))

theorem utf8Bytes_hmacHex_length (key msg : String) :
    (utf8Bytes (hmacHex key msg)).length = 64 := by
  rw [utf8Bytes_hmacHex, List.length_map, flatten_map_hexPair_length, hmacSha256_length]

/-- Two hex digests with equal UTF-8 bytes are equal strings. -/
theorem hmacHex_eq_of_utf8_eq {k1 m1 k2 m2 : String}
    (h : utf8Bytes (hmacHex k1 m1) = utf8Bytes (hmacHex k2 m2)) :
    hmacHex k1 m1 = hmacHex k2 m2 := by
  have h1 := utf8Bytes_mk_ascii ((hmacSha256 (utf8Bytes k1) (utf8Bytes m1)).map hexPair).flatten
    (bytesToHex_ascii _ (hmacSha256_mem_lt _ _))
  have h2 := utf8Bytes_mk_ascii ((hmacSha256 (utf8Bytes k2) (utf8Bytes m2)).map hexPair).flatten
    (bytesToHex_ascii _ (hmacSha256_mem_lt _ _))
  unfold hmacHex bytesToHex at *
  rw [h1, h2] at h
  have hl : ((hmacSha256 (utf8Bytes k1) (utf8Bytes m1)).map hexPair).flatten =
      ((hmacSha256 (utf8Bytes k2) (utf8Bytes m2)).map hexPair).flatten := by
    apply List.map_injective_iff.mpr _ h
    intro a b hab
    exact char_toNat_inj hab
  rw [hl]

-- ── Verification reduces to digest equality ─────────────────────────────

/-- Verifying any generated token never throws and succeeds exactly when the
recomputed digest equals the presented digest. -/
theorem verify_gen_eq_beq (s : String) (C C' : List (String × Json)) :
    verifyInteractionToken (some s) C' (generateTokenWith s C) =
      .ok (generateTokenWith s C' == generateTokenWith s C) := by
  have hlen : jsLength (generateTokenWith s C') = jsLength (generateTokenWith s C) := by
    unfold generateTokenWith
    rw [jsLength_hmacHex, jsLength_hmacHex]
  have hblen : (utf8Bytes (generateTokenWith s C')).length =
      (utf8Bytes (generateTokenWith s C)).length := by
    unfold generateTokenWith
    rw [utf8Bytes_hmacHex_length, utf8Bytes_hmacHex_length]
  unfold verifyInteractionToken generateInteractionToken getInteractionSecret timingSafeEqual
  simp only [Except.bind, bind, pure, Except.pure, hlen, ne_eq, not_true_eq_false,
    if_false, if_pos hblen, reduceIte]
  by_cases he : generateTokenWith s C' = generateTokenWith s C
  · rw [he]
    simp
  · have hb : utf8Bytes (generateTokenWith s C') ≠ utf8Bytes (generateTokenWith s C) := by
      intro hu
      apply he
      unfold generateTokenWith at *
      exact hmacHex_eq_of_utf8_eq hu
    simp [he, hb]

-- ── Nested keys outside the top-level whitelist are dropped ─────────────

theorem lookupJ_append_some {k : String} {xs : List (String × Json)} {v : Json}
    (h : lookupJ k xs = some v) (ys : List (String × Json)) :
    lookupJ k (xs ++ ys) = some v := by
  induction xs with
  | nil => simp [lookupJ] at h
  | cons hd tl ih =>
    obtain ⟨k', w⟩ := hd
    by_cases hk : k' = k
    · simp only [lookupJ, hk, if_pos rfl] at h ⊢
      simpa using h
    · simp only [lookupJ, hk, if_false] at h ⊢
      exact ih h

theorem lookupJ_append_none {k : String} {xs : List (String × Json)}
    (h : lookupJ k xs = none) (ys : List (String × Json)) :
    lookupJ k (xs ++ ys) = lookupJ k ys := by
  induction xs with
  | nil => rfl
  | cons hd tl ih =>
    obtain ⟨k', w⟩ := hd
    by_cases hk : k' = k
    · simp [lookupJ, hk] at h
    · simp only [lookupJ, hk, if_false] at h ⊢
      exact ih h

theorem entryStrings_all_absent {K : List String} {kvs : List (String × Json)} :
    ∀ ks, (∀ k ∈ ks, lookupJ k kvs = none) → entryStrings K ks kvs = [] := by
  intro ks
  induction ks with
  | nil => intro _; simp [entryStrings]
  | cons k ks ih =>
    intro h
    rw [entryStrings_cons_none (h k (by simp))]
    exact ih (fun k' hk' => h k' (by simp [hk']))

/-- An object none of whose keys are whitelisted serializes as `{}`. -/
theorem serializeWith_obj_absent {K : List String} {kvs : List (String × Json)}
    (h : ∀ k ∈ K, lookupJ k kvs = none) :
    serializeWith K (Json.obj kvs) = "{}" := by
  simp only [serializeWith]
  rw [entryStrings_all_absent K h]
  rfl

/-- The heart of the C2 failure: mutating a leaf stored under a nested key that
does not occur among the top-level keys leaves the generated token unchanged,
because `JSON.stringify`'s replacer array filters that key out at every depth. -/
theorem generateTokenWith_nested_drop (s : String) (pre post : List (String × Json))
    (k x : String) (v v' : Json)
    (hpre : ¬ x ∈ keysOf pre) (hk : x ≠ k) (hpost : ¬ x ∈ keysOf post) :
    generateTokenWith s (pre ++ (k, Json.obj [(x, v)]) :: post) =
      generateTokenWith s (pre ++ (k, Json.obj [(x, v')]) :: post) := by
  have hkeys : keysOf (pre ++ (k, Json.obj [(x, v)]) :: post) =
      keysOf (pre ++ (k, Json.obj [(x, v')]) :: post) := by
    simp [keysOf]
  have hxkeys : ¬ x ∈ keysOf (pre ++ (k, Json.obj [(x, v)]) :: post) := by
    simp only [keysOf, List.map_append, List.map_cons, List.mem_append, List.mem_cons]
    push_neg
    exact ⟨hpre, hk, hpost⟩
  have hxK : ∀ k1 ∈ sortKeys (keysOf (pre ++ (k, Json.obj [(x, v)]) :: post)), k1 ≠ x := by
    intro k1 hk1 heq
    subst heq
    exact hxkeys ((List.perm_insertionSort _ _).mem_iff.mp hk1)
  have hlook : ∀ (w : Json) (k0 : String),
      lookupJ k0 (pre ++ (k, Json.obj [(x, w)]) :: post) =
        match lookupJ k0 pre with
        | some u => some u
        | none => if k = k0 then some (Json.obj [(x, w)]) else lookupJ k0 post := by
    intro w k0
    cases hp : lookupJ k0 pre with
    | some u => simpa using lookupJ_append_some hp _
    | none =>
      rw [lookupJ_append_none hp]
      simp [lookupJ]
  have habsent : ∀ w : Json, serializeWith
      (sortKeys (keysOf (pre ++ (k, Json.obj [(x, v)]) :: post))) (Json.obj [(x, w)]) = "{}" := by
    intro w
    apply serializeWith_obj_absent
    intro k1 hk1
    simp [lookupJ, Ne.symm (hxK k1 hk1)]
  unfold generateTokenWith
  rw [← hkeys]
  have hser : serializeWith (sortKeys (keysOf (pre ++ (k, Json.obj [(x, v)]) :: post)))
      (Json.obj (pre ++ (k, Json.obj [(x, v)]) :: post)) =
      serializeWith (sortKeys (keysOf (pre ++ (k, Json.obj [(x, v)]) :: post)))
      (Json.obj (pre ++ (k, Json.obj [(x, v')]) :: post)) := by
    simp only [serializeWith]
    have := @entryStrings_congr
      (sortKeys (keysOf (pre ++ (k, Json.obj [(x, v)]) :: post)))
      (pre ++ (k, Json.obj [(x, v)]) :: post)
      (pre ++ (k, Json.obj [(x, v')]) :: post)
      (by
        intro k0
        rw [hlook v k0, hlook v' k0]
        cases hp : lookupJ k0 pre with
        | some u => rfl
        | none =>
          by_cases hkk : k = k0
          · simp [hkk]
          · simp [hkk])
      (by
        intro k0 w w' h1 h2
        rw [hlook v k0] at h1
        rw [hlook v' k0] at h2
        cases hp : lookupJ k0 pre with
        | some u =>
          rw [hp] at h1 h2
          simp only at h1 h2
          cases h1
          cases h2
          rfl
        | none =>
          rw [hp] at h1 h2
          simp only at h1 h2
          by_cases hkk : k = k0
          · rw [if_pos hkk] at h1 h2
            cases h1
            cases h2
            rw [habsent v, habsent v']
          · rw [if_neg hkk] at h1 h2
            rw [h1] at h2
            cases h2
            rfl)
    rw [this]
  rw [hser]

-- ── Totality and failure modes of `verifyInteractionToken` ──────────────

/-- With no secret initialized, verification throws (propagates the
`getInteractionSecret` error). -/
theorem verify_uninitialized (ctx : List (String × Json)) (token : String) :
    verifyInteractionToken none ctx token = .error "Interaction secret not initialized" := rfl

/-- A token whose JS string length is not 64 is rejected with `false`. -/
theorem verify_wrong_jsLength (s : String) (ctx : List (String × Json)) (token : String)
    (h : jsLength token ≠ 64) :
    verifyInteractionToken (some s) ctx token = .ok false := by
  have hlen : jsLength (generateTokenWith s ctx) = 64 := by
    unfold generateTokenWith
    exact jsLength_hmacHex _ _
  unfold verifyInteractionToken generateInteractionToken getInteractionSecret
  simp only [Except.bind, bind, pure, Except.pure, hlen]
  rw [if_pos (fun hh => h hh.symm)]

/-- On any token whose UTF-8 byte count equals its JS string length (in
particular every pure-ASCII token), verification returns a boolean. -/
theorem verify_ascii_total (s : String) (ctx : List (String × Json)) (token : String)
    (h : (utf8Bytes token).length = jsLength token) :
    ∃ b, verifyInteractionToken (some s) ctx token = .ok b := by
  by_cases hj : jsLength token = 64
  · have hlen : jsLength (generateTokenWith s ctx) = 64 := by
      unfold generateTokenWith
      exact jsLength_hmacHex _ _
    have hbl : (utf8Bytes (generateTokenWith s ctx)).length = (utf8Bytes token).length := by
      unfold generateTokenWith
      rw [utf8Bytes_hmacHex_length, h, hj]
    unfold verifyInteractionToken generateInteractionToken getInteractionSecret timingSafeEqual
    simp only [Except.bind, bind, pure, Except.pure, hlen, hj]
    rw [if_neg (fun hh => hh rfl), if_pos hbl]
    exact ⟨_, rfl⟩
  · exact ⟨false, verify_wrong_jsLength s ctx token hj⟩

/-- A 64-JS-length token whose UTF-8 byte count is not 64 makes
`crypto.timingSafeEqual` throw on a byte-length mismatch. -/
theorem verify_nonascii_throws (s : String) (ctx : List (String × Json)) (token : String)
    (h64 : jsLength token = 64) (hb : (utf8Bytes token).length ≠ 64) :
    verifyInteractionToken (some s) ctx token =
      .error "ERR_CRYPTO_TIMING_SAFE_EQUAL_LENGTH" := by
  have hlen : jsLength (generateTokenWith s ctx) = 64 := by
    unfold generateTokenWith
    exact jsLength_hmacHex _ _
  have hbl : (utf8Bytes (generateTokenWith s ctx)).length ≠ (utf8Bytes token).length := by
    unfold generateTokenWith
    rw [utf8Bytes_hmacHex_length]
    exact fun hh => hb hh.symm
  unfold verifyInteractionToken generateInteractionToken getInteractionSecret timingSafeEqual
  simp only [Except.bind, bind, pure, Except.pure, hlen, h64]
  rw [if_neg (fun hh => hh rfl), if_neg hbl]

-- ── C2 ──────────────────────────────────────────────────────────────────

/-- C2 counterexample: mutating the nested leaf `x` (1 ↦ 2) produces a
different context, yet the token generated for the original context still
verifies, because the serializer's whitelist — the sorted top-level keys,
here `["a"]` — filters the nested key `"x"` out at every depth. -/
theorem C2_counterexample :
    ¬ ([("a", Json.obj [("x", Json.num 1)])] : List (String × Json)) =
        [("a", Json.obj [("x", Json.num 2)])] ∧
    verifyInteractionToken (some "secret-1") [("a", Json.obj [("x", Json.num 2)])]
      (generateTokenWith "secret-1" [("a", Json.obj [("x", Json.num 1)])]) = .ok true := by
  constructor
  · simp
  · have hgen := generateTokenWith_nested_drop "secret-1" [] [] "a" "x"
      (Json.num 1) (Json.num 2) (by simp [keysOf]) (by decide) (by simp [keysOf])
    exact verify_of_token_eq hgen.symm

/-- C2 (amended): verifying `C'` against `sign(C)` never throws and returns
exactly the Boolean equality of the two digests, so a leaf mutation is
rejected precisely when it changes the recomputed digest; and a mutation of a
leaf stored under a nested key that does not occur among the top-level keys
never changes the digest, so such mutated contexts still verify as `true`. -/
theorem C2_verification_detects_mutations_only_in_digest :
    (∀ (s : String) (C C' : List (String × Json)),
      verifyInteractionToken (some s) C' (generateTokenWith s C) =
        .ok (generateTokenWith s C' == generateTokenWith s C)) ∧
    (∀ (s : String) (pre post : List (String × Json)) (k x : String) (v v' : Json),
      ¬ x ∈ keysOf pre → x ≠ k → ¬ x ∈ keysOf post →
      generateTokenWith s (pre ++ (k, Json.obj [(x, v)]) :: post) =
        generateTokenWith s (pre ++ (k, Json.obj [(x, v')]) :: post)) :=
  ⟨verify_gen_eq_beq, generateTokenWith_nested_drop⟩

/-- Witness for C2 at concrete inputs. -/
theorem C2_witness :
    verifyInteractionToken (some "secret-1") [("b", Json.num 5)]
        (generateTokenWith "secret-1" [("b", Json.num 7)]) =
      .ok (generateTokenWith "secret-1" [("b", Json.num 5)] ==
        generateTokenWith "secret-1" [("b", Json.num 7)]) ∧
    generateTokenWith "secret-1" [("a", Json.obj [("x", Json.num 1)])] =
      generateTokenWith "secret-1" [("a", Json.obj [("x", Json.num 2)])] :=
  ⟨C2_verification_detects_mutations_only_in_digest.1 "secret-1"
      [("b", Json.num 7)] [("b", Json.num 5)],
    C2_verification_detects_mutations_only_in_digest.2 "secret-1" [] [] "a" "x"
      (Json.num 1) (Json.num 2) (by simp [keysOf]) (by decide) (by simp [keysOf])⟩

-- ── C4 ──────────────────────────────────────────────────────────────────

/-- C4 counterexample: a 64-character token made of non-ASCII characters
passes the JS string-length check but has 128 UTF-8 bytes, so
`crypto.timingSafeEqual` throws instead of returning a boolean. -/
theorem C4_counterexample :
    jsLength (String.mk (List.replicate 64 'é')) = 64 ∧
    verifyInteractionToken (some "secret-1") [("action_id", Json.str "click")]
      (String.mk (List.replicate 64 'é')) =
      .error "ERR_CRYPTO_TIMING_SAFE_EQUAL_LENGTH" := by
  constructor
  · decide
  · exact verify_nonascii_throws _ _ _ (by decide) (by decide)

/-- C4 (amended): with an initialized secret, `verifyInteractionToken` returns
`false` whenever the token's length differs from the 64-character digest
length, and returns a boolean on every token whose UTF-8 byte count equals its
string length (hence on every ASCII token, malformed or not); but it is not
exception-free: a 64-character token with a different UTF-8 byte count makes
`timingSafeEqual` throw, and an uninitialized secret also throws. -/
theorem C4_verify_totality_characterized :
    (∀ (s : String) (ctx : List (String × Json)) (token : String),
      jsLength token ≠ 64 → verifyInteractionToken (some s) ctx token = .ok false) ∧
    (∀ (s : String) (ctx : List (String × Json)) (token : String),
      (utf8Bytes token).length = jsLength token →
      ∃ b, verifyInteractionToken (some s) ctx token = .ok b) ∧
    (∀ (s : String) (ctx : List (String × Json)) (token : String),
      jsLength token = 64 → (utf8Bytes token).length ≠ 64 →
      verifyInteractionToken (some s) ctx token =
        .error "ERR_CRYPTO_TIMING_SAFE_EQUAL_LENGTH") ∧
    (∀ (ctx : List (String × Json)) (token : String),
      verifyInteractionToken none ctx token = .error "Interaction secret not initialized") :=
  ⟨verify_wrong_jsLength, verify_ascii_total, verify_nonascii_throws,
    fun ctx token => verify_uninitialized ctx token⟩

/-- Witness for C4 at concrete inputs. -/
theorem C4_witness :
    verifyInteractionToken (some "secret-9") [] "short" = .ok false ∧
    (∃ b, verifyInteractionToken (some "secret-9") [] "deadbeef" = .ok b) ∧
    verifyInteractionToken (some "secret-9") [] (String.mk (List.replicate 64 'é')) =
      .error "ERR_CRYPTO_TIMING_SAFE_EQUAL_LENGTH" :=
  ⟨C4_verify_totality_characterized.1 "secret-9" [] "short" (by decide),
    C4_verify_totality_characterized.2.1 "secret-9" [] "deadbeef" (by decide),
    C4_verify_totality_characterized.2.2.1 "secret-9" [] _ (by decide) (by decide)⟩

-- ── C10: process-wide secret, last-write-wins ───────────────────────────

/-- Cross-secret variant of `verify_gen_eq_beq`: verifying under one secret a
token generated under another reduces to digest equality and never throws. -/
theorem verify_gen_cross (s2 s1 : String) (C' C : List (String × Json)) :
    verifyInteractionToken (some s2) C' (generateTokenWith s1 C) =
      .ok (generateTokenWith s2 C' == generateTokenWith s1 C) := by
  have hlen : jsLength (generateTokenWith s2 C') = jsLength (generateTokenWith s1 C) := by
    unfold generateTokenWith
    rw [jsLength_hmacHex, jsLength_hmacHex]
  have hblen : (utf8Bytes (generateTokenWith s2 C')).length =
      (utf8Bytes (generateTokenWith s1 C)).length := by
    unfold generateTokenWith
    rw [utf8Bytes_hmacHex_length, utf8Bytes_hmacHex_length]
  unfold verifyInteractionToken generateInteractionToken getInteractionSecret timingSafeEqual
  simp only [Except.bind, bind, pure, Except.pure, hlen, ne_eq, not_true_eq_false,
    if_false, if_pos hblen, reduceIte]
  by_cases he : generateTokenWith s2 C' = generateTokenWith s1 C
  · rw [he]
    simp
  · have hb : utf8Bytes (generateTokenWith s2 C') ≠ utf8Bytes (generateTokenWith s1 C) := by
      intro hu
      apply he
      unfold generateTokenWith at *
      exact hmacHex_eq_of_utf8_eq hu
    simp [he, hb]

/-- C10: the signing secret is one process-wide mutable value with no account
key: with no `setInteractionSecret` call the getter throws; after any call
history the getter returns the secret derived from the most recent call,
whatever account any token was issued for; and a token generated under one
credential fails verification after the secret is reset to a credential whose
derived digest for that context differs (i.e. always, short of an
HMAC-SHA-256 collision). -/
theorem C10_secret_is_process_wide_last_write_wins :
    (getInteractionSecret none = .error "Interaction secret not initialized") ∧
    (∀ (st : Option String) (calls : List String) (cred : String),
      getInteractionSecret
          ((calls ++ [cred]).foldl (fun _ c => setInteractionSecret c) st) =
        .ok (hmacHex "openclaw-mattermost-interactions" cred)) ∧
    (∀ (cred1 cred2 : String) (C : List (String × Json)) (token : String),
      generateInteractionToken (setInteractionSecret cred1) C = .ok token →
      generateTokenWith (hmacHex "openclaw-mattermost-interactions" cred2) C ≠ token →
      verifyInteractionToken (setInteractionSecret cred2) C token = .ok false) := by
  refine ⟨rfl, ?_, ?_⟩
  · intro st calls cred
    rw [List.foldl_append]
    rfl
  · intro cred1 cred2 C token hgen hne
    have htok : token = generateTokenWith (hmacHex "openclaw-mattermost-interactions" cred1) C := by
      simp [generateInteractionToken, setInteractionSecret, getInteractionSecret,
        Except.bind, bind, pure, Except.pure] at hgen
      exact hgen.symm
    subst htok
    have hcross := verify_gen_cross (hmacHex "openclaw-mattermost-interactions" cred2)
      (hmacHex "openclaw-mattermost-interactions" cred1) C C
    rw [show setInteractionSecret cred2 =
      some (hmacHex "openclaw-mattermost-interactions" cred2) from rfl, hcross,
      beq_eq_false_iff_ne.mpr hne]

set_option maxHeartbeats 4000000 in
/-- Witness for C10: two concrete credentials; the digests are computed by the
kernel and differ, so the old token is rejected after the secret changes. -/
theorem C10_witness :
    getInteractionSecret
        ((["token-a"] ++ ["token-b"]).foldl (fun _ c => setInteractionSecret c) none) =
      .ok (hmacHex "openclaw-mattermost-interactions" "token-b") ∧
    verifyInteractionToken (setInteractionSecret "token-b") [("action_id", Json.str "x")]
      (generateTokenWith (hmacHex "openclaw-mattermost-interactions" "token-a")
        [("action_id", Json.str "x")]) = .ok false := by
  have hser : serializeWith (sortKeys (keysOf [("action_id", Json.str "x")]))
      (Json.obj [("action_id", Json.str "x")]) = "\x7b\"action_id\":\"x\"\x7d" := by
    simp [serializeWith, sortKeys, keysOf, List.insertionSort, List.orderedInsert,
      entryStrings, lookupJ, joinComma, quoteJson, escapeChar]
  have e1 : generateTokenWith (hmacHex "openclaw-mattermost-interactions" "token-a")
      [("action_id", Json.str "x")] =
      hmacHex (hmacHex "openclaw-mattermost-interactions" "token-a") "\x7b\"action_id\":\"x\"\x7d" := by
    unfold generateTokenWith
    rw [hser]
  have e2 : generateTokenWith (hmacHex "openclaw-mattermost-interactions" "token-b")
      [("action_id", Json.str "x")] =
      hmacHex (hmacHex "openclaw-mattermost-interactions" "token-b") "\x7b\"action_id\":\"x\"\x7d" := by
    unfold generateTokenWith
    rw [hser]
  refine ⟨C10_secret_is_process_wide_last_write_wins.2.1 none ["token-a"] "token-b", ?_⟩
  apply C10_secret_is_process_wide_last_write_wins.2.2 "token-a" "token-b"
  · rfl
  · rw [e1, e2]
    decide

-- ── HTTP interaction handler (`interactions.ts` lines 163–349) ──────────

/-- The fields of the parsed interaction payload that the handler reads. -/
structure MPayload where
  user_id : String
  user_name : Option String
  channel_id : String
  post_id : String
  context : Option (List (String × Json))

/-- An inbound request as the handler observes it: the method, the socket's
remote address, and the combined result of `readInteractionBody` +
`JSON.parse` (both failures land in the same `catch`). -/
structure HandlerRequest where
  method : String
  remoteAddress : Option String
  body : Except String MPayload

/-- Arguments of the `updateMattermostPost` call. -/
structure PostUpdateArgs where
  message : String
  attachmentText : String

/-- The response plus every collaborator invocation of one handler run. -/
structure HandlerResult where
  status : Nat
  contentType : Option String
  allowHeader : Option String
  responseBody : String
  enqueued : List (String × String × String)
  fetched : List String
  updated : List (String × PostUpdateArgs)

/-- The loopback address set (`LOCALHOST_ADDRESSES`). -/
def LOCALHOST_ADDRESSES : List String := ["127.0.0.1", "::1", "::ffff:127.0.0.1"]

/-- Model of `isLocalhostRequest`. -/
def isLocalhostRequest (remoteAddress : Option String) : Bool :=
  match remoteAddress with
  | none => false
  | some addr => LOCALHOST_ADDRESSES.contains addr

/-- A 4xx/405 gate response: JSON error body, no side effects. -/
def gateResponse (status : Nat) (allow : Option String) (msg : String) : HandlerResult :=
  { status := status, contentType := some "application/json", allowHeader := allow,
    responseBody := "\x7b\"error\":\"" ++ msg ++ "\"\x7d",
    enqueued := [], fetched := [], updated := [] }

/-- Model of `createMattermostInteractionHandler`'s request handler, with the three
collaborator calls (system event sink, post fetch, post update) injected as
outcome values. A `.error` result models an exception escaping the handler
(the only uncaught throw sites are `getInteractionSecret` and
`timingSafeEqual` inside the verification step). -/
def handleInteraction (accountId : String)
    (resolveSessionKey : Option (String → Except String String))
    (secret : Option String)
    (enqueueOutcome : Except String Unit)
    (fetchOutcome : Except String (Option String))
    (updateOutcome : Except String Unit)
    (req : HandlerRequest) : Except String HandlerResult :=
  if req.method ≠ "POST" then
    .ok (gateResponse 405 (some "POST") "Method Not Allowed")
  else if ¬ isLocalhostRequest req.remoteAddress then
    .ok (gateResponse 403 none "Forbidden")
  else match req.body with
  | .error _ => .ok (gateResponse 400 none "Invalid request body")
  | .ok payload =>
    match payload.context with
    | none => .ok (gateResponse 400 none "Missing context")
    | some context =>
      match lookupJ "_token" context with
      | some (Json.str token) =>
        let contextWithoutToken := eraseKey "_token" context
        match verifyInteractionToken secret contextWithoutToken token with
        | .error e => .error e
        | .ok false => .ok (gateResponse 403 none "Invalid token")
        | .ok true =>
          match lookupJ "action_id" context with
          | some (Json.str actionId) =>
            let eventLabel := "Mattermost button click: action=\"" ++ actionId ++ "\" by " ++
              (payload.user_name.getD payload.user_id) ++ " in channel " ++ payload.channel_id
            let contextKey := "mattermost:interaction:" ++ payload.post_id ++ ":" ++ actionId
            let enqueued :=
              match resolveSessionKey with
              | some resolver =>
                match resolver payload.channel_id with
                | .ok sessionKey => [(eventLabel, sessionKey, contextKey)]
                | .error _ => []
              | none =>
                [(eventLabel,
                  "agent:main:mattermost:" ++ accountId ++ ":" ++ payload.channel_id,
                  contextKey)]
            let userName := payload.user_name.getD payload.user_id
            let updated :=
              match fetchOutcome with
              | .ok originalMessage =>
                [(payload.post_id,
                  { message := originalMessage.getD "",
                    attachmentText :=
                      "✓ **" ++ actionId ++ "** selected by @" ++ userName })]
              | .error _ => []
            .ok ⟨200, some "application/json", none, "{}",
              enqueued, [payload.post_id], updated⟩
          | _ => .ok (gateResponse 400 none "Missing action_id in context")
      | _ => .ok (gateResponse 403 none "Missing token")

/-- Once every gate through `ActionIdentified` passes, the handler's result is
the fixed 200/`{}` response together with the dispatch and post-update effects
determined by the resolver and the fetch outcome. -/
theorem handle_success_shape (accountId : String)
    (resolveSessionKey : Option (String → Except String String)) (secret : Option String)
    (e : Except String Unit) (f : Except String (Option String)) (u : Except String Unit)
    (req : HandlerRequest) (payload : MPayload) (context : List (String × Json))
    (token actionId : String)
    (hm : req.method = "POST") (hl : isLocalhostRequest req.remoteAddress = true)
    (hb : req.body = .ok payload) (hc : payload.context = some context)
    (htok : lookupJ "_token" context = some (Json.str token))
    (hv : verifyInteractionToken secret (eraseKey "_token" context) token = .ok true)
    (ha : lookupJ "action_id" context = some (Json.str actionId)) :
    handleInteraction accountId resolveSessionKey secret e f u req =
      .ok ⟨200, some "application/json", none, "{}",
        (match resolveSessionKey with
         | some resolver =>
           match resolver payload.channel_id with
           | .ok sessionKey =>
             [("Mattermost button click: action=\"" ++ actionId ++ "\" by " ++
                 (payload.user_name.getD payload.user_id) ++ " in channel " ++
                 payload.channel_id, sessionKey,
               "mattermost:interaction:" ++ payload.post_id ++ ":" ++ actionId)]
           | .error _ => []
         | none =>
           [("Mattermost button click: action=\"" ++ actionId ++ "\" by " ++
               (payload.user_name.getD payload.user_id) ++ " in channel " ++
               payload.channel_id,
             "agent:main:mattermost:" ++ accountId ++ ":" ++ payload.channel_id,
             "mattermost:interaction:" ++ payload.post_id ++ ":" ++ actionId)]),
        [payload.post_id],
        (match f with
         | .ok originalMessage =>
           [(payload.post_id,
             ⟨originalMessage.getD "",
               "✓ **" ++ actionId ++ "** selected by @" ++
                 (payload.user_name.getD payload.user_id)⟩)]
         | .error _ => [])⟩ := by
  unfold handleInteraction
  rw [hm, hb]
  simp only [ne_eq, not_true_eq_false, if_false, hl, Bool.not_true, hc, htok, hv, ha]

-- ── C6 ──────────────────────────────────────────────────────────────────

/-- C6: a request that reaches the token gate with a context whose `_token`
field is absent or not a string gets a 403 response with body
`{"error":"Missing token"}`, and the System Event Sink is never invoked. -/
theorem C6_missing_token_403_and_no_dispatch (accountId : String)
    (resolveSessionKey : Option (String → Except String String)) (secret : Option String)
    (e : Except String Unit) (f : Except String (Option String)) (u : Except String Unit)
    (req : HandlerRequest) (payload : MPayload) (context : List (String × Json))
    (hm : req.method = "POST") (hl : isLocalhostRequest req.remoteAddress = true)
    (hb : req.body = .ok payload) (hc : payload.context = some context)
    (ht : ∀ s, lookupJ "_token" context ≠ some (Json.str s)) :
    handleInteraction accountId resolveSessionKey secret e f u req =
      .ok (gateResponse 403 none "Missing token") ∧
    (gateResponse 403 none "Missing token").responseBody = "\x7b\"error\":\"Missing token\"\x7d" ∧
    (gateResponse 403 none "Missing token").enqueued = [] := by
  refine ⟨?_, rfl, rfl⟩
  unfold handleInteraction
  rw [hm, hb]
  simp only [ne_eq, not_true_eq_false, if_false, hl, Bool.not_true, hc]

/-- Witness for C6 at a concrete request with no `_token` in the context. -/
theorem C6_witness :
    handleInteraction "acct-1" none (some "secret-1") (.ok ()) (.ok none) (.ok ())
        ⟨"POST", some "127.0.0.1",
          .ok ⟨"u1", none, "chan-1", "post-1", some [("action_id", Json.str "go")]⟩⟩ =
      .ok (gateResponse 403 none "Missing token") ∧
    (gateResponse 403 none "Missing token").responseBody = "\x7b\"error\":\"Missing token\"\x7d" ∧
    (gateResponse 403 none "Missing token").enqueued = [] :=
  C6_missing_token_403_and_no_dispatch "acct-1" none (some "secret-1")
    (.ok ()) (.ok none) (.ok ()) _ _ [("action_id", Json.str "go")]
    rfl rfl rfl rfl (by simp [lookupJ])

-- ── C5 ──────────────────────────────────────────────────────────────────

/-- C5: past the `ActionIdentified` gate the handler always answers 200 with
the JSON body `{}` whatever the collaborator outcomes are; the dispatch
effect, the post fetch and the response are the same for every combination of
collaborator outcomes, and the post-update effect depends only on the fetch
outcome. -/
theorem C5_always_200_and_independent_effects (accountId : String)
    (resolveSessionKey : Option (String → Except String String)) (secret : Option String)
    (req : HandlerRequest) (payload : MPayload) (context : List (String × Json))
    (token actionId : String)
    (hm : req.method = "POST") (hl : isLocalhostRequest req.remoteAddress = true)
    (hb : req.body = .ok payload) (hc : payload.context = some context)
    (htok : lookupJ "_token" context = some (Json.str token))
    (hv : verifyInteractionToken secret (eraseKey "_token" context) token = .ok true)
    (ha : lookupJ "action_id" context = some (Json.str actionId)) :
    (∀ (e : Except String Unit) (f : Except String (Option String)) (u : Except String Unit),
      ∃ r, handleInteraction accountId resolveSessionKey secret e f u req = .ok r ∧
        r.status = 200 ∧ r.contentType = some "application/json" ∧
        r.responseBody = "{}" ∧ r.fetched = [payload.post_id]) ∧
    (∀ (e1 : Except String Unit) (f1 : Except String (Option String))
        (u1 : Except String Unit) (e2 : Except String Unit)
        (f2 : Except String (Option String)) (u2 : Except String Unit)
        (r1 r2 : HandlerResult),
      handleInteraction accountId resolveSessionKey secret e1 f1 u1 req = .ok r1 →
      handleInteraction accountId resolveSessionKey secret e2 f2 u2 req = .ok r2 →
      r1.enqueued = r2.enqueued ∧ r1.fetched = r2.fetched ∧ r1.status = r2.status ∧
        r1.responseBody = r2.responseBody ∧ (f1 = f2 → r1.updated = r2.updated)) := by
  constructor
  · intro e f u
    refine ⟨_, handle_success_shape accountId resolveSessionKey secret e f u req payload
      context token actionId hm hl hb hc htok hv ha, rfl, rfl, rfl, rfl⟩
  · intro e1 f1 u1 e2 f2 u2 r1 r2 h1 h2
    rw [handle_success_shape accountId resolveSessionKey secret e1 f1 u1 req payload
      context token actionId hm hl hb hc htok hv ha] at h1
    rw [handle_success_shape accountId resolveSessionKey secret e2 f2 u2 req payload
      context token actionId hm hl hb hc htok hv ha] at h2
    cases h1
    cases h2
    refine ⟨rfl, rfl, rfl, rfl, ?_⟩
    intro hf
    rw [hf]

/-- Witness for C5 at a concrete verified request. -/
theorem C5_witness :
    (∃ r, handleInteraction "acct-1" none (some "secret-1")
        (.error "sink down") (.error "fetch down") (.error "update down")
        ⟨"POST", some "::1",
          .ok ⟨"u1", some "alice", "chan-1", "post-1",
            some [("action_id", Json.str "go"),
              ("_token", Json.str (generateTokenWith "secret-1"
                [("action_id", Json.str "go")]))]⟩⟩ = .ok r ∧
      r.status = 200 ∧ r.contentType = some "application/json" ∧
      r.responseBody = "{}" ∧ r.fetched = ["post-1"]) := by
  refine (C5_always_200_and_independent_effects "acct-1" none (some "secret-1")
    ⟨"POST", some "::1",
      .ok ⟨"u1", some "alice", "chan-1", "post-1",
        some [("action_id", Json.str "go"),
          ("_token", Json.str (generateTokenWith "secret-1" [("action_id", Json.str "go")]))]⟩⟩
    ⟨"u1", some "alice", "chan-1", "post-1",
      some [("action_id", Json.str "go"),
        ("_token", Json.str (generateTokenWith "secret-1" [("action_id", Json.str "go")]))]⟩
    [("action_id", Json.str "go"),
      ("_token", Json.str (generateTokenWith "secret-1" [("action_id", Json.str "go")]))]
    (generateTokenWith "secret-1" [("action_id", Json.str "go")]) "go"
    rfl rfl rfl rfl (by simp [lookupJ]) ?_ (by simp [lookupJ])).1
    (.error "sink down") (.error "fetch down") (.error "update down")
  have he : eraseKey "_token"
      [("action_id", Json.str "go"),
        ("_token", Json.str (generateTokenWith "secret-1" [("action_id", Json.str "go")]))] =
      [("action_id", Json.str "go")] := by
    simp [eraseKey]
  rw [he]
  exact verify_of_token_eq rfl

-- ── C3 ──────────────────────────────────────────────────────────────────

/-- C3 counterexample: the session resolver throws on an otherwise valid
interaction; the handler still answers 200 and still updates the post, but
the System Event Sink is never invoked — no dispatch with the fallback
session key happens. -/
theorem C3_counterexample :
    handleInteraction "acct-1" (some fun _ => .error "resolver boom") (some "secret-1")
        (.ok ()) (.ok (some "orig message")) (.ok ())
        ⟨"POST", some "127.0.0.1",
          .ok ⟨"u1", none, "chan-1", "post-1",
            some [("action_id", Json.str "approve"),
              ("_token", Json.str (generateTokenWith "secret-1"
                [("action_id", Json.str "approve")]))]⟩⟩ =
      .ok ⟨200, some "application/json", none, "{}", [], ["post-1"],
        [("post-1", ⟨"orig message", "✓ **approve** selected by @u1"⟩)]⟩ := by
  have he : eraseKey "_token"
      [("action_id", Json.str "approve"),
        ("_token", Json.str (generateTokenWith "secret-1" [("action_id", Json.str "approve")]))] =
      [("action_id", Json.str "approve")] := by
    simp [eraseKey]
  have hv : verifyInteractionToken (some "secret-1")
      (eraseKey "_token"
        [("action_id", Json.str "approve"),
          ("_token", Json.str (generateTokenWith "secret-1"
            [("action_id", Json.str "approve")]))])
      (generateTokenWith "secret-1" [("action_id", Json.str "approve")]) = .ok true := by
    rw [he]
    exact verify_of_token_eq rfl
  rw [handle_success_shape "acct-1" (some fun _ => .error "resolver boom") (some "secret-1")
    (.ok ()) (.ok (some "orig message")) (.ok ())
    ⟨"POST", some "127.0.0.1",
      .ok ⟨"u1", none, "chan-1", "post-1",
        some [("action_id", Json.str "approve"),
          ("_token", Json.str (generateTokenWith "secret-1"
            [("action_id", Json.str "approve")]))]⟩⟩
    ⟨"u1", none, "chan-1", "post-1",
      some [("action_id", Json.str "approve"),
        ("_token", Json.str (generateTokenWith "secret-1"
          [("action_id", Json.str "approve")]))]⟩
    [("action_id", Json.str "approve"),
      ("_token", Json.str (generateTokenWith "secret-1" [("action_id", Json.str "approve")]))]
    (generateTokenWith "secret-1" [("action_id", Json.str "approve")]) "approve"
    rfl rfl rfl rfl (by simp [lookupJ]) hv (by simp [lookupJ])]
  rfl

/-- C3 (amended): when a session resolver was supplied and it throws on an
otherwise valid interaction, the whole dispatch step is skipped — the System
Event Sink is never invoked and no fallback session key is used — while the
post-update step still runs and the handler still responds 200 with `{}`.
The deterministic `agent:main:mattermost:<accountId>:<channelId>` fallback is
used only when no resolver was supplied at all. -/
theorem C3_resolver_throw_skips_dispatch (accountId : String)
    (resolver : String → Except String String) (err : String) (secret : Option String)
    (e : Except String Unit) (f : Except String (Option String)) (u : Except String Unit)
    (req : HandlerRequest) (payload : MPayload) (context : List (String × Json))
    (token actionId : String)
    (hm : req.method = "POST") (hl : isLocalhostRequest req.remoteAddress = true)
    (hb : req.body = .ok payload) (hc : payload.context = some context)
    (htok : lookupJ "_token" context = some (Json.str token))
    (hv : verifyInteractionToken secret (eraseKey "_token" context) token = .ok true)
    (ha : lookupJ "action_id" context = some (Json.str actionId))
    (hr : resolver payload.channel_id = .error err) :
    (∃ r, handleInteraction accountId (some resolver) secret e f u req = .ok r ∧
      r.status = 200 ∧ r.responseBody = "{}" ∧ r.enqueued = [] ∧
      r.fetched = [payload.post_id]) ∧
    (∀ r, handleInteraction accountId none secret e f u req = .ok r →
      r.enqueued = [("Mattermost button click: action=\"" ++ actionId ++ "\" by " ++
          (payload.user_name.getD payload.user_id) ++ " in channel " ++ payload.channel_id,
        "agent:main:mattermost:" ++ accountId ++ ":" ++ payload.channel_id,
        "mattermost:interaction:" ++ payload.post_id ++ ":" ++ actionId)]) := by
  constructor
  · refine ⟨_, handle_success_shape accountId (some resolver) secret e f u req payload
      context token actionId hm hl hb hc htok hv ha, rfl, rfl, ?_, rfl⟩
    simp only [hr]
  · intro r h
    rw [handle_success_shape accountId none secret e f u req payload
      context token actionId hm hl hb hc htok hv ha] at h
    cases h
    rfl

/-- Witness for C3's amended statement at a concrete request. -/
theorem C3_witness :
    (∃ r, handleInteraction "acct-1" (some fun _ => .error "resolver boom") (some "secret-1")
        (.ok ()) (.ok none) (.ok ())
        ⟨"POST", some "127.0.0.1",
          .ok ⟨"u1", none, "chan-1", "post-1",
            some [("action_id", Json.str "go"),
              ("_token", Json.str (generateTokenWith "secret-1"
                [("action_id", Json.str "go")]))]⟩⟩ = .ok r ∧
      r.status = 200 ∧ r.responseBody = "{}" ∧ r.enqueued = [] ∧
      r.fetched = ["post-1"]) := by
  refine (C3_resolver_throw_skips_dispatch "acct-1" (fun _ => .error "resolver boom")
    "resolver boom" (some "secret-1") (.ok ()) (.ok none) (.ok ())
    ⟨"POST", some "127.0.0.1",
      .ok ⟨"u1", none, "chan-1", "post-1",
        some [("action_id", Json.str "go"),
          ("_token", Json.str (generateTokenWith "secret-1" [("action_id", Json.str "go")]))]⟩⟩
    ⟨"u1", none, "chan-1", "post-1",
      some [("action_id", Json.str "go"),
        ("_token", Json.str (generateTokenWith "secret-1" [("action_id", Json.str "go")]))]⟩
    [("action_id", Json.str "go"),
      ("_token", Json.str (generateTokenWith "secret-1" [("action_id", Json.str "go")]))]
    (generateTokenWith "secret-1" [("action_id", Json.str "go")]) "go"
    rfl rfl rfl rfl (by simp [lookupJ]) ?_ (by simp [lookupJ]) rfl).1
  have he : eraseKey "_token"
      [("action_id", Json.str "go"),
        ("_token", Json.str (generateTokenWith "secret-1" [("action_id", Json.str "go")]))] =
      [("action_id", Json.str "go")] := by
    simp [eraseKey]
  rw [he]
  exact verify_of_token_eq rfl

-- ── Bounded body reader (`readInteractionBody`, lines 177–208) ──────────

def INTERACTION_MAX_BODY_BYTES : Nat := 64 * 1024

def INTERACTION_BODY_TIMEOUT_MS : Nat := 10000

/-- One event on the request stream, tagged with its arrival time in ms. -/
inductive BodyEvent where
  | data (chunk : List Nat)
  | endOfBody
  | errored

structure TimedEvent where
  time : Nat
  ev : BodyEvent

inductive ReadOutcome where
  | ok (body : List Nat)
  | tooLarge
  | timedOut
  | failed

/-- How the read promise settled, and whether `req.destroy()` was called. -/
structure ReadResult where
  outcome : ReadOutcome
  destroyed : Bool

/-- The promise executor of `readInteractionBody`: process stream events in
arrival order; the promise settles once, the 10 s timer fires before any event
stamped at or after the deadline, cumulative chunk bytes above the 64 KiB cap
destroy the connection and reject, `end` resolves with the concatenation. An
exhausted event list without `end` means the timer eventually fires. -/
def runRead : Nat → List (List Nat) → List TimedEvent → ReadResult
  | _, _, [] => ⟨.timedOut, true⟩
  | totalBytes, chunks, e :: rest =>
    if INTERACTION_BODY_TIMEOUT_MS ≤ e.time then ⟨.timedOut, true⟩
    else match e.ev with
      | .data chunk =>
        if totalBytes + chunk.length > INTERACTION_MAX_BODY_BYTES then ⟨.tooLarge, true⟩
        else runRead (totalBytes + chunk.length) (chunks ++ [chunk]) rest
      | .endOfBody => ⟨.ok chunks.flatten, false⟩
      | .errored => ⟨.failed, false⟩

/-- Model of `readInteractionBody` over a stream trace. -/
def readInteractionBody (events : List TimedEvent) : ReadResult := runRead 0 [] events

/-- The handler's body stage: `JSON.parse` runs only on a resolved body; any
rejection propagates as the catch-all parse failure. -/
def readThenParse (events : List TimedEvent) (parse : List Nat → Except String MPayload) :
    Except String MPayload :=
  match (readInteractionBody events).outcome with
  | .ok body => parse body
  | .tooLarge => .error "Request body too large"
  | .timedOut => .error "Request body read timeout"
  | .failed => .error "stream error"

/-- The cumulative payload bytes of a list of stream events. -/
def eventBytes (events : List TimedEvent) : Nat :=
  (events.map (fun e => match e.ev with | .data chunk => chunk.length | _ => 0)).sum

theorem runRead_tooLarge : ∀ (pre : List TimedEvent) (t : Nat) (c : List Nat)
    (rest : List TimedEvent) (totalBytes : Nat) (chunks : List (List Nat)),
    (∀ e ∈ pre, e.time < INTERACTION_BODY_TIMEOUT_MS ∧ ∃ ch, e.ev = .data ch) →
    t < INTERACTION_BODY_TIMEOUT_MS →
    totalBytes + eventBytes pre + c.length > INTERACTION_MAX_BODY_BYTES →
    runRead totalBytes chunks (pre ++ ⟨t, .data c⟩ :: rest) = ⟨.tooLarge, true⟩ := by
  intro pre
  induction pre with
  | nil =>
    intro t c rest totalBytes chunks _ ht hsize
    simp only [eventBytes, List.map_nil, List.sum_nil, Nat.add_zero] at hsize
    simp only [List.nil_append, runRead]
    rw [if_neg (show ¬ INTERACTION_BODY_TIMEOUT_MS ≤ t by omega)]
    rw [if_pos hsize]
  | cons e pre ih =>
    intro t c rest totalBytes chunks hpre ht hsize
    obtain ⟨htime, ch, hch⟩ := hpre e (by simp)
    simp only [List.cons_append, runRead, hch]
    rw [if_neg (show ¬ INTERACTION_BODY_TIMEOUT_MS ≤ e.time by omega)]
    by_cases hover : totalBytes + ch.length > INTERACTION_MAX_BODY_BYTES
    · rw [if_pos hover]
    · rw [if_neg hover]
      apply ih t c rest _ _ (fun e' he' => hpre e' (by simp [he'])) ht
      have : eventBytes (e :: pre) = ch.length + eventBytes pre := by
        simp [eventBytes, hch]
      omega

theorem runRead_timeout : ∀ (events : List TimedEvent) (totalBytes : Nat)
    (chunks : List (List Nat)),
    (∀ e ∈ events, e.time < INTERACTION_BODY_TIMEOUT_MS → ∃ ch, e.ev = .data ch) →
    totalBytes + eventBytes events ≤ INTERACTION_MAX_BODY_BYTES →
    runRead totalBytes chunks events = ⟨.timedOut, true⟩ := by
  intro events
  induction events with
  | nil => intro _ _ _ _; rfl
  | cons e rest ih =>
    intro totalBytes chunks hdata hsize
    by_cases ht : INTERACTION_BODY_TIMEOUT_MS ≤ e.time
    · simp only [runRead, if_pos ht]
    · obtain ⟨ch, hch⟩ := hdata e (by simp) (by omega)
      have hbytes : eventBytes (e :: rest) = ch.length + eventBytes rest := by
        simp [eventBytes, hch]
      simp only [runRead, hch]
      rw [if_neg ht]
      rw [if_neg (show ¬ totalBytes + ch.length > INTERACTION_MAX_BODY_BYTES by omega)]
      exact ih _ _ (fun e' he' => hdata e' (by simp [he'])) (by omega)

-- ── C7 ──────────────────────────────────────────────────────────────────

/-- C7: a request body whose cumulative bytes exceed 64 KiB (strictly more
than 65536) within the 10 s window destroys the connection and fails with the
size-limit error before any JSON parsing; a body not completed within 10 s
fails with the timeout error; in both cases the parse result is a fixed error
value independent of the parser, so no partial body is ever handed to it. -/
theorem C7_body_caps_abort_before_parse :
    (∀ (pre : List TimedEvent) (t : Nat) (c : List Nat) (rest : List TimedEvent),
      (∀ e ∈ pre, e.time < INTERACTION_BODY_TIMEOUT_MS ∧ ∃ ch, e.ev = .data ch) →
      t < INTERACTION_BODY_TIMEOUT_MS →
      eventBytes pre + c.length > INTERACTION_MAX_BODY_BYTES →
      readInteractionBody (pre ++ ⟨t, .data c⟩ :: rest) = ⟨.tooLarge, true⟩ ∧
      ∀ parse, readThenParse (pre ++ ⟨t, .data c⟩ :: rest) parse =
        .error "Request body too large") ∧
    (∀ events : List TimedEvent,
      (∀ e ∈ events, e.time < INTERACTION_BODY_TIMEOUT_MS → ∃ ch, e.ev = .data ch) →
      eventBytes events ≤ INTERACTION_MAX_BODY_BYTES →
      readInteractionBody events = ⟨.timedOut, true⟩ ∧
      ∀ parse, readThenParse events parse = .error "Request body read timeout") := by
  constructor
  · intro pre t c rest hpre ht hsize
    have h := runRead_tooLarge pre t c rest 0 [] hpre ht (by omega)
    refine ⟨h, fun parse => ?_⟩
    unfold readThenParse readInteractionBody
    unfold readInteractionBody at h
    rw [h]
  · intro events hdata hsize
    have h := runRead_timeout events 0 [] hdata (by omega)
    refine ⟨h, fun parse => ?_⟩
    unfold readThenParse readInteractionBody
    unfold readInteractionBody at h
    rw [h]

/-- Witness for C7: a single over-sized chunk, and a stream whose only event
arrives after the deadline. -/
theorem C7_witness :
    (readInteractionBody [⟨5, .data (List.replicate 65537 0)⟩] = ⟨.tooLarge, true⟩ ∧
      ∀ parse, readThenParse [⟨5, .data (List.replicate 65537 0)⟩] parse =
        .error "Request body too large") ∧
    (readInteractionBody [⟨20000, .endOfBody⟩] = ⟨.timedOut, true⟩ ∧
      ∀ parse, readThenParse [⟨20000, .endOfBody⟩] parse =
        .error "Request body read timeout") :=
  ⟨C7_body_caps_abort_before_parse.1 [] 5 (List.replicate 65537 0) []
      (by simp) (by decide)
      (by rw [List.length_replicate]; decide),
    C7_body_caps_abort_before_parse.2 [⟨20000, .endOfBody⟩]
      (by intro e he hlt; simp at he; rw [he] at hlt; simp [INTERACTION_BODY_TIMEOUT_MS] at hlt)
      (by simp [eventBytes, INTERACTION_MAX_BODY_BYTES])⟩

-- ── Slack block transformer (`slack/monitor/events/interactions.ts`) ────

/-- Model of `(block as {type?: string}).type === t`: property probe on an untyped
block; non-objects and non-string types compare unequal. -/
def blockTypeIs (t : String) (b : Json) : Bool :=
  match b with
  | Json.obj kvs =>
    match lookupJ "type" kvs with
    | some (Json.str s) => s == t
    | _ => false
  | _ => false

/-- Model of `b.block_id === blockId`. -/
def blockIdIs (blockId : String) (b : Json) : Bool :=
  match b with
  | Json.obj kvs =>
    match lookupJ "block_id" kvs with
    | some (Json.str s) => s == blockId
    | _ => false
  | _ => false

/-- Model of `b.type === "actions" && b.block_id === blockId`. -/
def isClickedActions (blockId : String) (b : Json) : Bool :=
  blockTypeIs "actions" b && blockIdIs blockId b

/-- The static confirmation block substituted for the clicked actions row. -/
def confirmationBlock (buttonText : String) : Json :=
  Json.obj [("type", Json.str "context"),
    ("elements", Json.arr [Json.obj [("type", Json.str "mrkdwn"),
      ("text", Json.str ("✓ *" ++ buttonText ++ "* selected"))]])]

/-- Boolean infix test on character lists. -/
def hasInfix (pat : List Char) : List Char → Bool
  | [] => pat.isEmpty
  | c :: rest => pat.isPrefixOf (c :: rest) || hasInfix pat rest

/-- Model of `s.includes(pat)`. -/
def strIncludes (s pat : String) : Bool := hasInfix pat.toList s.toList

/-- Model of `el.action_id?.includes("_all_")` coerced to a boolean: absent or
non-string `action_id` is `undefined`, which is falsy inside `every`. -/
def elemBulkMarker (el : Json) : Bool :=
  match el with
  | Json.obj kvs =>
    match lookupJ "action_id" kvs with
    | some (Json.str s) => strIncludes s "_all_"
    | _ => false
  | _ => false

/-- Model of `b.elements?.every((el) => el.action_id?.includes("_all_"))`: `none`
models `undefined` (no `elements` field, or a null one). -/
def elementsEveryBulk (b : Json) : Option Bool :=
  match b with
  | Json.obj kvs =>
    match lookupJ "elements" kvs with
    | some (Json.arr els) => some (els.all elemBulkMarker)
    | _ => none
  | _ => none

/-- Step 1: replace every actions block holding the clicked control by the
confirmation block. -/
def replaceClicked (blockId buttonText : String) (blocks : List Json) : List Json :=
  blocks.map (fun b =>
    if isClickedActions blockId b then confirmationBlock buttonText else b)

/-- The step-2 filter: an interactive-controls block that is not bulk
(`return !isBulk`, where an `undefined` every-result is falsy). -/
def isIndividualActions (b : Json) : Bool :=
  blockTypeIs "actions" b && !((elementsEveryBulk b).getD false)

/-- Model of `b.type === "actions" && b.elements?.every(...)` used truthily. -/
def isBulkActions (b : Json) : Bool :=
  blockTypeIs "actions" b && (elementsEveryBulk b).getD false

/-- The step-3 filter predicate over `(i, block)`, with the lookahead
`updatedBlocks[i + 1]`. -/
def removeBulkKeep (updated : List Json) (ib : Nat × Json) : Bool :=
  if isBulkActions ib.2 then false
  else if blockTypeIs "divider" ib.2 then
    match updated[ib.1 + 1]? with
    | some next => !(isBulkActions next)
    | none => true
  else true

/-- Step 3: remove every bulk actions block and any divider directly before
one (`updatedBlocks.filter((block, i) => …)`). -/
def removeBulkStep (updated : List Json) : List Json :=
  ((updated.enum.filter (removeBulkKeep updated)).map (·.2))

/-- The block transformation run on a button click (lines 66–113). -/
def transformBlocks (blockId buttonText : String) (blocks : List Json) : List Json :=
  let updated := replaceClicked blockId buttonText blocks
  let remaining := updated.filter isIndividualActions
  if remaining.length = 0 then removeBulkStep updated else updated

/-- Index-free characterization of step 3: the lookahead at `i + 1` is the
head of the rest of the list. -/
def removeBulkRec : List Json → List Json
  | [] => []
  | b :: rest =>
    if isBulkActions b then removeBulkRec rest
    else if blockTypeIs "divider" b &&
        (match rest.head? with | some next => isBulkActions next | none => false) then
      removeBulkRec rest
    else b :: removeBulkRec rest

/-- Layouts the JavaScript can process without a `TypeError`: whenever a block
carries an `elements` field, it is an array or null. -/
def blocksWF (blocks : List Json) : Prop :=
  ∀ b ∈ blocks, ∀ kvs, b = Json.obj kvs → ∀ x, lookupJ "elements" kvs = some x →
    x = Json.null ∨ ∃ els, x = Json.arr els

theorem removeBulk_aux (full : List Json) :
    ∀ (l : List Json) (i : Nat), (∀ j : Nat, full[i + j]? = l[j]?) →
      ((l.enumFrom i).filter (removeBulkKeep full)).map (·.2) = removeBulkRec l := by
  intro l
  induction l with
  | nil => intro i _; rfl
  | cons b rest ih =>
    intro i h
    have hnext : full[i + 1]? = rest.head? := by
      rw [h 1]
      cases rest <;> simp
    have hshift : ∀ j : Nat, full[(i + 1) + j]? = rest[j]? := by
      intro j
      have := h (j + 1)
      rw [show i + (j + 1) = (i + 1) + j by omega] at this
      rw [this]
      simp
    have hrec := ih (i + 1) hshift
    simp only [List.enumFrom_cons]
    by_cases hbulk : isBulkActions b = true
    · have hkeep : removeBulkKeep full (i, b) = false := by
        simp [removeBulkKeep, hbulk]
      rw [List.filter_cons_of_neg (by simp [hkeep])]
      rw [hrec]
      simp [removeBulkRec, hbulk]
    · have hbulk' : isBulkActions b = false := by
        cases hb : isBulkActions b
        · rfl
        · exact absurd hb hbulk
      by_cases hdiv : blockTypeIs "divider" b = true
      · cases hnx : rest.head? with
        | some next =>
          by_cases hnb : isBulkActions next = true
          · have hkeep : removeBulkKeep full (i, b) = false := by
              simp [removeBulkKeep, hbulk', hdiv, hnext, hnx, hnb]
            rw [List.filter_cons_of_neg (by simp [hkeep])]
            rw [hrec]
            simp [removeBulkRec, hbulk', hdiv, hnx, hnb]
          · have hnb' : isBulkActions next = false := by
              cases hb : isBulkActions next
              · rfl
              · exact absurd hb hnb
            have hkeep : removeBulkKeep full (i, b) = true := by
              simp [removeBulkKeep, hbulk', hdiv, hnext, hnx, hnb']
            rw [List.filter_cons_of_pos (by simp [hkeep])]
            simp only [List.map_cons]
            rw [hrec]
            simp [removeBulkRec, hbulk', hdiv, hnx, hnb']
        | none =>
          have hkeep : removeBulkKeep full (i, b) = true := by
            simp [removeBulkKeep, hbulk', hdiv, hnext, hnx]
          rw [List.filter_cons_of_pos (by simp [hkeep])]
          simp only [List.map_cons]
          rw [hrec]
          simp [removeBulkRec, hbulk', hdiv, hnx]
      · have hdiv' : blockTypeIs "divider" b = false := by
          cases hb : blockTypeIs "divider" b
          · rfl
          · exact absurd hb hdiv
        have hkeep : removeBulkKeep full (i, b) = true := by
          simp [removeBulkKeep, hbulk', hdiv']
        rw [List.filter_cons_of_pos (by simp [hkeep])]
        simp only [List.map_cons]
        rw [hrec]
        simp [removeBulkRec, hbulk', hdiv']

/-- The index-based step-3 filter equals its index-free characterization. -/
theorem removeBulkStep_eq_rec (l : List Json) : removeBulkStep l = removeBulkRec l := by
  unfold removeBulkStep
  have h0 : ∀ j : Nat, l[0 + j]? = l[j]? := by
    intro j
    rw [Nat.zero_add]
  have := removeBulk_aux l l 0 h0
  rw [← this]
  rfl

theorem removeBulkRec_subset : ∀ {l : List Json} {b : Json}, b ∈ removeBulkRec l → b ∈ l := by
  intro l
  induction l with
  | nil => intro b h; simp [removeBulkRec] at h
  | cons x rest ih =>
    intro b h
    unfold removeBulkRec at h
    split at h
    · exact List.mem_cons_of_mem x (ih h)
    · split at h
      · exact List.mem_cons_of_mem x (ih h)
      · rcases List.mem_cons.mp h with h | h
        · exact h ▸ List.mem_cons_self x rest
        · exact List.mem_cons_of_mem x (ih h)

theorem removeBulkRec_mem_not_bulk : ∀ {l : List Json} {b : Json},
    b ∈ removeBulkRec l → isBulkActions b = false := by
  intro l
  induction l with
  | nil => intro b h; simp [removeBulkRec] at h
  | cons x rest ih =>
    intro b h
    unfold removeBulkRec at h
    split at h
    · exact ih h
    · split at h
      · exact ih h
      · rcases List.mem_cons.mp h with h | h
        · subst h
          rename_i hx _
          cases hb : isBulkActions b
          · rfl
          · exact absurd hb hx
        · exact ih h

/-- Unfolding equation of `removeBulkRec` on a cons cell. -/
theorem removeBulkRec_cons (b : Json) (rest : List Json) :
    removeBulkRec (b :: rest) =
      if isBulkActions b then removeBulkRec rest
      else if blockTypeIs "divider" b &&
          (match rest.head? with | some next => isBulkActions next | none => false) then
        removeBulkRec rest
      else b :: removeBulkRec rest := rfl

theorem removeBulkRec_no_bulk : ∀ {l : List Json},
    (∀ b ∈ l, isBulkActions b = false) → removeBulkRec l = l := by
  intro l
  induction l with
  | nil => intro _; rfl
  | cons x rest ih =>
    intro h
    rw [removeBulkRec_cons]
    rw [if_neg (by rw [h x (by simp)]; simp)]
    have hnx : (match rest.head? with
        | some next => isBulkActions next
        | none => false) = false := by
      cases hr : rest.head? with
      | none => rfl
      | some next =>
        exact h next (List.mem_cons_of_mem x (List.mem_of_mem_head? hr))
    rw [if_neg (by simp only [hnx, Bool.and_false]; simp)]
    rw [ih (fun b hb => h b (by simp [hb]))]

theorem removeBulkRec_append_no_bulk : ∀ (l suffix : List Json),
    (∀ b ∈ l, isBulkActions b = false) →
    (∀ s0, suffix.head? = some s0 → isBulkActions s0 = false) →
    removeBulkRec (l ++ suffix) = l ++ removeBulkRec suffix := by
  intro l
  induction l with
  | nil => intro suffix _ _; rfl
  | cons x rest ih =>
    intro suffix h hsuf
    simp only [List.cons_append]
    rw [removeBulkRec_cons]
    rw [if_neg (by rw [h x (by simp)]; simp)]
    have hnx : (match (rest ++ suffix).head? with
        | some next => isBulkActions next
        | none => false) = false := by
      cases hr : (rest ++ suffix).head? with
      | none => rfl
      | some next =>
        have : next ∈ rest ++ suffix := List.mem_of_mem_head? hr
        rcases List.mem_append.mp this with hmem | hmem
        · exact h next (List.mem_cons_of_mem x hmem)
        · cases rest with
          | nil =>
            simp only [List.nil_append] at hr
            exact hsuf next hr
          | cons y ys =>
            simp only [List.cons_append, List.head?_cons] at hr
            cases hr
            exact h next (by simp)
    rw [if_neg (by simp only [hnx, Bool.and_false]; simp)]
    rw [ih suffix (fun b hb => h b (by simp [hb])) hsuf]

theorem isClicked_confirmation (blockId buttonText : String) :
    isClickedActions blockId (confirmationBlock buttonText) = false := by
  simp [isClickedActions, confirmationBlock, blockTypeIs, lookupJ]

theorem replaceClicked_mem_not_clicked (blockId buttonText : String) (l : List Json) :
    ∀ x ∈ replaceClicked blockId buttonText l, isClickedActions blockId x = false := by
  intro x hx
  simp only [replaceClicked, List.mem_map] at hx
  obtain ⟨b, _, hb⟩ := hx
  by_cases h : isClickedActions blockId b = true
  · rw [← hb, if_pos h]
    exact isClicked_confirmation blockId buttonText
  · rw [← hb, if_neg h]
    cases hc : isClickedActions blockId b
    · rfl
    · exact absurd hc h

theorem replaceClicked_id_of_not_clicked (blockId buttonText : String) :
    ∀ {l : List Json}, (∀ b ∈ l, isClickedActions blockId b = false) →
      replaceClicked blockId buttonText l = l := by
  intro l
  induction l with
  | nil => intro _; rfl
  | cons x rest ih =>
    intro h
    simp only [replaceClicked, List.map_cons]
    rw [if_neg (by rw [h x (by simp)]; simp)]
    have := ih (fun b hb => h b (by simp [hb]))
    simp only [replaceClicked] at this
    rw [this]

-- ── C9 ──────────────────────────────────────────────────────────────────

/-- C9: for every layout the JavaScript can process and every clicked
control, applying the block transformation twice yields the same layout as
applying it once. -/
theorem C9_transform_idempotent (blockId buttonText : String) (blocks : List Json)
    (hwf : blocksWF blocks) :
    transformBlocks blockId buttonText (transformBlocks blockId buttonText blocks) =
      transformBlocks blockId buttonText blocks := by
  have hu : ∀ x ∈ replaceClicked blockId buttonText blocks,
      isClickedActions blockId x = false :=
    replaceClicked_mem_not_clicked blockId buttonText blocks
  by_cases hrem :
      ((replaceClicked blockId buttonText blocks).filter isIndividualActions).length = 0
  · have h1 : transformBlocks blockId buttonText blocks =
        removeBulkRec (replaceClicked blockId buttonText blocks) := by
      simp only [transformBlocks]
      rw [if_pos hrem, removeBulkStep_eq_rec]
    have hnoind : ∀ b ∈ replaceClicked blockId buttonText blocks,
        isIndividualActions b = false := by
      intro b hb
      have hfil : (replaceClicked blockId buttonText blocks).filter isIndividualActions = [] :=
        List.length_eq_zero.mp hrem
      have := List.filter_eq_nil.mp hfil b hb
      cases hc : isIndividualActions b
      · rfl
      · exact absurd hc this
    have hRid : replaceClicked blockId buttonText
        (removeBulkRec (replaceClicked blockId buttonText blocks)) =
        removeBulkRec (replaceClicked blockId buttonText blocks) :=
      replaceClicked_id_of_not_clicked blockId buttonText
        (fun x hx => hu x (removeBulkRec_subset hx))
    have hrem2 : ((removeBulkRec (replaceClicked blockId buttonText blocks)).filter
        isIndividualActions).length = 0 := by
      rw [List.length_eq_zero]
      apply List.filter_eq_nil.mpr
      intro b hb hc
      have := hnoind b (removeBulkRec_subset hb)
      rw [this] at hc
      cases hc
    rw [h1]
    simp only [transformBlocks]
    rw [hRid, if_pos hrem2, removeBulkStep_eq_rec]
    exact removeBulkRec_no_bulk (fun b hb => removeBulkRec_mem_not_bulk hb)
  · have h1 : transformBlocks blockId buttonText blocks =
        replaceClicked blockId buttonText blocks := by
      simp only [transformBlocks]
      rw [if_neg hrem]
    have hUid : replaceClicked blockId buttonText (replaceClicked blockId buttonText blocks) =
        replaceClicked blockId buttonText blocks :=
      replaceClicked_id_of_not_clicked blockId buttonText hu
    rw [h1]
    simp only [transformBlocks]
    rw [hUid, if_neg hrem]

/-- Witness for C9 on a concrete layout. -/
theorem C9_witness :
    transformBlocks "B1" "Approve"
        (transformBlocks "B1" "Approve"
          [Json.obj [("type", Json.str "section")],
            Json.obj [("type", Json.str "actions"), ("block_id", Json.str "B1"),
              ("elements", Json.arr [Json.obj [("action_id", Json.str "openclaw:approve")]])],
            Json.obj [("type", Json.str "divider")],
            Json.obj [("type", Json.str "actions"), ("block_id", Json.str "B2"),
              ("elements", Json.arr [Json.obj [("action_id", Json.str "openclaw:do_all_x")]])]]) =
      transformBlocks "B1" "Approve"
        [Json.obj [("type", Json.str "section")],
          Json.obj [("type", Json.str "actions"), ("block_id", Json.str "B1"),
            ("elements", Json.arr [Json.obj [("action_id", Json.str "openclaw:approve")]])],
          Json.obj [("type", Json.str "divider")],
          Json.obj [("type", Json.str "actions"), ("block_id", Json.str "B2"),
            ("elements", Json.arr [Json.obj [("action_id", Json.str "openclaw:do_all_x")]])]] :=
  C9_transform_idempotent "B1" "Approve" _ (by
    intro b hb kvs hkvs x hx
    simp only [List.mem_cons, List.not_mem_nil, or_false] at hb
    rcases hb with hb | hb | hb | hb <;> subst hb <;> cases hkvs <;>
      simp [lookupJ] at hx <;> exact Or.inr ⟨_, hx.symm⟩)

theorem blockTypeIs_ne {t1 t2 : String} (b : Json) (h12 : t1 ≠ t2)
    (h : blockTypeIs t1 b = true) : blockTypeIs t2 b = false := by
  cases b with
  | obj kvs =>
    simp only [blockTypeIs] at h ⊢
    cases hl : lookupJ "type" kvs with
    | none => rw [hl] at h
    | some v =>
      rw [hl] at h
      cases v with
      | str s =>
        have hs : s = t1 := by simpa using h
        subst hs
        simpa using beq_eq_false_iff_ne.mpr h12
      | null => simp at h
      | bool x => simp at h
      | num x => simp at h
      | arr x => simp at h
      | obj x => simp at h
  | null => simp [blockTypeIs] at h
  | bool x => simp [blockTypeIs] at h
  | num x => simp [blockTypeIs] at h
  | str x => simp [blockTypeIs] at h
  | arr x => simp [blockTypeIs] at h

theorem not_actions_not_clicked {b : Json} (blockId : String)
    (h : blockTypeIs "actions" b = false) : isClickedActions blockId b = false := by
  simp [isClickedActions, h]

theorem not_actions_not_individual {b : Json}
    (h : blockTypeIs "actions" b = false) : isIndividualActions b = false := by
  simp [isIndividualActions, h]

theorem not_actions_not_bulk {b : Json}
    (h : blockTypeIs "actions" b = false) : isBulkActions b = false := by
  simp [isBulkActions, h]

theorem bulk_not_individual {b : Json}
    (h : isBulkActions b = true) : isIndividualActions b = false := by
  unfold isBulkActions at h
  unfold isIndividualActions
  rw [Bool.and_eq_true] at h
  rw [h.1, h.2]
  rfl

theorem confirmation_not_actions (buttonText : String) :
    blockTypeIs "actions" (confirmationBlock buttonText) = false := by
  simp [confirmationBlock, blockTypeIs, lookupJ]

theorem replaceClicked_append (blockId buttonText : String) (A B : List Json) :
    replaceClicked blockId buttonText (A ++ B) =
      replaceClicked blockId buttonText A ++ replaceClicked blockId buttonText B := by
  simp [replaceClicked]

theorem replaceClicked_cons (blockId buttonText : String) (x : Json) (B : List Json) :
    replaceClicked blockId buttonText (x :: B) =
      (if isClickedActions blockId x then confirmationBlock buttonText else x) ::
        replaceClicked blockId buttonText B := rfl

-- ── C8 ──────────────────────────────────────────────────────────────────

/-- C8: in a layout holding one individual clicked interactive-controls
block, one bulk interactive-controls block directly preceded by a divider,
and otherwise only non-interactive blocks, clicking the individual control
replaces it by the confirmation block, removes the bulk block and its
preceding divider, and leaves every other block unchanged. -/
theorem C8_click_removes_bulk_and_preceding_divider
    (blockId buttonText : String) (pre mid post : List Json) (ind divb bulk : Json)
    (hpre : ∀ b ∈ pre, blockTypeIs "actions" b = false)
    (hmid : ∀ b ∈ mid, blockTypeIs "actions" b = false)
    (hpost : ∀ b ∈ post, blockTypeIs "actions" b = false)
    (hind : isClickedActions blockId ind = true)
    (hdiv : blockTypeIs "divider" divb = true)
    (hbulk : isBulkActions bulk = true)
    (hbulkNc : isClickedActions blockId bulk = false) :
    transformBlocks blockId buttonText (pre ++ ind :: (mid ++ divb :: bulk :: post)) =
      pre ++ confirmationBlock buttonText :: (mid ++ post) := by
  have hdivNa : blockTypeIs "actions" divb = false :=
    blockTypeIs_ne divb (by decide) hdiv
  have hupd : replaceClicked blockId buttonText (pre ++ ind :: (mid ++ divb :: bulk :: post)) =
      pre ++ confirmationBlock buttonText :: (mid ++ divb :: bulk :: post) := by
    rw [replaceClicked_append, replaceClicked_cons, replaceClicked_append,
      replaceClicked_cons, replaceClicked_cons]
    rw [replaceClicked_id_of_not_clicked blockId buttonText
        (fun b hb => not_actions_not_clicked blockId (hpre b hb)),
      replaceClicked_id_of_not_clicked blockId buttonText
        (fun b hb => not_actions_not_clicked blockId (hmid b hb)),
      replaceClicked_id_of_not_clicked blockId buttonText
        (fun b hb => not_actions_not_clicked blockId (hpost b hb))]
    rw [if_pos hind,
      if_neg (by rw [not_actions_not_clicked blockId hdivNa]; simp),
      if_neg (by rw [hbulkNc]; simp)]
  have hall : ∀ b ∈ pre ++ confirmationBlock buttonText :: (mid ++ divb :: bulk :: post),
      isIndividualActions b = false := by
    intro b hb
    simp only [List.mem_append, List.mem_cons] at hb
    rcases hb with hb | hb | hb | hb | hb | hb
    · exact not_actions_not_individual (hpre b hb)
    · subst hb; exact not_actions_not_individual (confirmation_not_actions buttonText)
    · exact not_actions_not_individual (hmid b hb)
    · subst hb; exact not_actions_not_individual hdivNa
    · subst hb; exact bulk_not_individual hbulk
    · exact not_actions_not_individual (hpost b hb)
  have hrem : ((pre ++ confirmationBlock buttonText :: (mid ++ divb :: bulk :: post)).filter
      isIndividualActions).length = 0 := by
    rw [List.length_eq_zero]
    apply List.filter_eq_nil.mpr
    intro b hb hc
    rw [hall b hb] at hc
    cases hc
  simp only [transformBlocks]
  rw [hupd, if_pos hrem, removeBulkStep_eq_rec]
  have hassoc : pre ++ confirmationBlock buttonText :: (mid ++ divb :: bulk :: post) =
      (pre ++ confirmationBlock buttonText :: mid) ++ (divb :: bulk :: post) := by
    simp
  rw [hassoc]
  have hA : ∀ b ∈ pre ++ confirmationBlock buttonText :: mid, isBulkActions b = false := by
    intro b hb
    simp only [List.mem_append, List.mem_cons] at hb
    rcases hb with hb | hb | hb
    · exact not_actions_not_bulk (hpre b hb)
    · subst hb; exact not_actions_not_bulk (confirmation_not_actions buttonText)
    · exact not_actions_not_bulk (hmid b hb)
  rw [removeBulkRec_append_no_bulk (pre ++ confirmationBlock buttonText :: mid)
    (divb :: bulk :: post) hA
    (by
      intro s0 hs0
      simp only [List.head?_cons] at hs0
      cases hs0
      exact not_actions_not_bulk hdivNa)]
  rw [removeBulkRec_cons]
  rw [if_neg (by rw [not_actions_not_bulk hdivNa]; simp)]
  rw [if_pos (by
    simp only [List.head?_cons]
    rw [hdiv, hbulk]
    rfl)]
  rw [removeBulkRec_cons, if_pos hbulk]
  rw [removeBulkRec_no_bulk (fun b hb => not_actions_not_bulk (hpost b hb))]
  simp

/-- Witness for C8 on a concrete four-block layout. -/
theorem C8_witness :
    transformBlocks "B1" "Approve"
        ([Json.obj [("type", Json.str "section")]] ++
          Json.obj [("type", Json.str "actions"), ("block_id", Json.str "B1"),
            ("elements", Json.arr [Json.obj [("action_id", Json.str "openclaw:approve")]])] ::
          ([] ++ Json.obj [("type", Json.str "divider")] ::
            Json.obj [("type", Json.str "actions"), ("block_id", Json.str "B2"),
              ("elements", Json.arr [Json.obj [("action_id", Json.str "openclaw:do_all_x")]])] ::
            [])) =
      [Json.obj [("type", Json.str "section")]] ++
        confirmationBlock "Approve" :: ([] ++ []) :=
  C8_click_removes_bulk_and_preceding_divider "B1" "Approve"
    [Json.obj [("type", Json.str "section")]] [] []
    (Json.obj [("type", Json.str "actions"), ("block_id", Json.str "B1"),
      ("elements", Json.arr [Json.obj [("action_id", Json.str "openclaw:approve")]])])
    (Json.obj [("type", Json.str "divider")])
    (Json.obj [("type", Json.str "actions"), ("block_id", Json.str "B2"),
      ("elements", Json.arr [Json.obj [("action_id", Json.str "openclaw:do_all_x")]])])
    (by intro b hb; simp only [List.mem_singleton] at hb; subst hb; decide)
    (by simp) (by simp)
    (by decide) (by decide) (by decide) (by decide)
